import Mathlib

set_option maxRecDepth 40000

/-
Verification development for the Deloton bike-analysis pipeline.

The transformation layer (src/pipeline/transform.py), the heart-rate
threshold module (src/pipeline/validate_heart_rate.py) and the dashboard
utility copy of the heart-rate formulas (src/dashboard/utilities.py) are
embedded shallowly below.  Python strings are modelled as `List Char`,
Python `dict` payloads decoded by `ast.literal_eval` as association lists
from key to a dynamic value, and fallible code (an uncaught Python
exception) as `Option`: `none` means the call raises.
-/

/-! ### Python string primitives -/

/-- Python `str` whitespace (ASCII part, which is all the pipeline meets). -/
def pyIsSpace (c : Char) : Bool :=
  c = ' ' || c = '\t' || c = '\n' || c = '\r' || c = '\x0b' || c = '\x0c'

/-- Python `s.strip()`. -/
def pyStrip (s : List Char) : List Char :=
  ((s.dropWhile pyIsSpace).reverse.dropWhile pyIsSpace).reverse

/-- Python `s.split(sep)` for a one-character separator: keeps empty pieces,
never returns an empty list. -/
def pySplitChar (sep : Char) : List Char → List (List Char)
  | [] => [[]]
  | c :: t =>
    let r := pySplitChar sep t
    if c = sep then [] :: r
    else match r with
      | [] => [[c]]
      | h :: t2 => (c :: h) :: t2

/-- Pieces of a string cut at whitespace (empty runs kept). -/
def splitWsRaw : List Char → List (List Char)
  | [] => [[]]
  | c :: t =>
    let r := splitWsRaw t
    if pyIsSpace c then [] :: r
    else match r with
      | [] => [[c]]
      | h :: t2 => (c :: h) :: t2

/-- Python `s.split()` with no argument: split on whitespace runs, dropping
empty pieces. -/
def pySplitWs (s : List Char) : List (List Char) :=
  (splitWsRaw s).filter (fun x => !x.isEmpty)

/-- Python `s.lower()` (ASCII). -/
def pyLower (s : List Char) : List Char :=
  s.map Char.toLower

/-- Python `' '.join(xs)`. -/
def joinSpace : List (List Char) → List Char
  | [] => []
  | [x] => x
  | x :: y :: t => x ++ ' ' :: joinSpace (y :: t)

/-- Python `s.rfind(c)`: index of the last occurrence, `-1` when absent. -/
def pyRFind (c : Char) (s : List Char) : Int :=
  match s.reverse.findIdx? (fun x => x = c) with
  | some i => (s.length : Int) - 1 - i
  | none => -1

/-- Python slice `s[:k]` for an `int` bound `k` (negative counts from the
end, clamped at zero). -/
def pySliceTo (s : List Char) (k : Int) : List Char :=
  if 0 ≤ k then s.take k.toNat
  else s.take (s.length - min s.length k.natAbs)

/-- Python `l[-1]` for a nonempty list of strings (callers guard emptiness). -/
def pyLast (l : List (List Char)) : List Char :=
  l.reverse.headI

/-- Python `l[-2]` for a list of at least two strings (callers guard length). -/
def pySecondLast (l : List (List Char)) : List Char :=
  l.reverse.tail.headI

/-- Numeric value of a digit run. -/
def digitsToNat : List Char → Nat → Nat
  | [], acc => acc
  | c :: t, acc => digitsToNat t (acc * 10 + (c.toNat - 48))

/-- Every character is an ASCII digit and the run is nonempty. -/
def allDigits (s : List Char) : Bool :=
  !s.isEmpty && s.all Char.isDigit

/-- Python `int(s)` on a string: optional sign then decimal digits,
surrounding whitespace allowed; `none` models the `ValueError` raised
otherwise.  (Underscore digit separators are not modelled; the model
accepts strictly fewer strings than CPython, so every `some` is real.) -/
def pyInt (s : List Char) : Option Int :=
  match pyStrip s with
  | '+' :: r => if allDigits r then some (digitsToNat r 0 : Int) else none
  | '-' :: r => if allDigits r then some (-(digitsToNat r 0 : Int)) else none
  | t => if allDigits t then some (digitsToNat t 0 : Int) else none

/-- An exact rational as an unnormalized numerator/denominator pair (the
denominator is positive in every value the development builds).  Unlike
`Rat` its arithmetic avoids `Nat.gcd`, so concrete values evaluate inside
`decide`. -/
structure Frac where
  num : Int
  den : Nat
  deriving DecidableEq

/-- Embed an integer. -/
def Frac.ofInt (n : Int) : Frac := ⟨n, 1⟩

/-- Exact product. -/
def Frac.mul (a b : Frac) : Frac := ⟨a.num * b.num, a.den * b.den⟩

/-- Exact difference. -/
def Frac.sub (a b : Frac) : Frac :=
  ⟨a.num * (b.den : Int) - b.num * (a.den : Int), a.den * b.den⟩

/-- Exact quotient (callers only divide by positive values). -/
def Frac.div (a b : Frac) : Frac := ⟨a.num * (b.den : Int), a.den * b.num.toNat⟩

/-- Negation. -/
def Frac.neg (a : Frac) : Frac := ⟨-a.num, a.den⟩

/-- Absolute value. -/
def Frac.abs (a : Frac) : Frac := ⟨a.num.natAbs, a.den⟩

/-- Order by cross multiplication (positive denominators). -/
def Frac.ltB (a b : Frac) : Bool := a.num * (b.den : Int) < b.num * (a.den : Int)

/-- The rational a `Frac` denotes. -/
def Frac.toRat (a : Frac) : ℚ := (a.num : ℚ) / (a.den : ℚ)

/-- Floor of a `Frac` (positive denominator). -/
def Frac.floorI (a : Frac) : Int := Int.fdiv a.num a.den

/-- Mantissa of a float literal: `digits`, `digits.`, `digits.digits` or
`.digits`, as an exact `Frac`. -/
def pyFloatMantissa (s : List Char) : Option Frac :=
  match pySplitChar '.' s with
  | [ip] => if allDigits ip then some ⟨(digitsToNat ip 0 : Int), 1⟩ else none
  | [ip, fp] =>
    if (ip.isEmpty || ip.all Char.isDigit) && (fp.isEmpty || fp.all Char.isDigit)
        && !(ip.isEmpty && fp.isEmpty) then
      some ⟨(digitsToNat ip 0 : Int) * (10 ^ fp.length : Nat) + (digitsToNat fp 0 : Int),
            10 ^ fp.length⟩
    else none
  | _ => none

/-- Split off an optional leading sign. -/
def pySign : List Char → (Bool × List Char)
  | '+' :: r => (true, r)
  | '-' :: r => (false, r)
  | s => (true, s)

/-- Python `float(s)` on a string, as the exact rational value of the
literal: sign, mantissa and optional decimal exponent.  `none` models the
`ValueError` on anything else (the rare `inf`/`nan` spellings are not
modelled, again keeping the model's accepted set inside CPython's). -/
def pyFloat (s : List Char) : Option Frac :=
  let t := pyLower (pyStrip s)
  let (pos, t2) := pySign t
  let signed : Frac → Frac := fun q => if pos then q else q.neg
  match pySplitChar 'e' t2 with
  | [m] => (pyFloatMantissa m).map signed
  | [m, ex] =>
    match pyFloatMantissa m with
    | none => none
    | some q =>
      let (epos, ed) := pySign ex
      if allDigits ed then
        let e := digitsToNat ed 0
        some (signed (if epos then ⟨q.num * (10 ^ e : Nat), q.den⟩
                      else ⟨q.num, q.den * 10 ^ e⟩))
      else none
  | _ => none

/-! ### Decoded payloads and record values -/

/-- A value inside the Python-literal mapping decoded from a log line. -/
inductive PyVal where
  | pnull : PyVal
  | pint : Int → PyVal
  | pstr : List Char → PyVal
  deriving DecidableEq

/-- The mapping decoded by `literal_eval(log_line.split('=')[1])`. -/
abbrev Payload := List (List Char × PyVal)

/-- Python `d.get(k)` distinguishing a missing key (`none`) from a stored
value. -/
def pGet : Payload → List Char → Option PyVal
  | [], _ => none
  | kv :: t, k => if kv.1 = k then some kv.2 else pGet t k

/-- Python `d.get(k, dflt)`. -/
def pGetD (p : Payload) (k : List Char) (dflt : PyVal) : PyVal :=
  (pGet p k).getD dflt

/-- Python truthiness of a payload value. -/
def pyTruthy : PyVal → Bool
  | .pnull => false
  | .pint n => n ≠ 0
  | .pstr s => !s.isEmpty

/-- Python `int(v)` on a payload value (`none` = `TypeError`/`ValueError`). -/
def pyIntOfVal : PyVal → Option Int
  | .pnull => none
  | .pint n => some n
  | .pstr s => pyInt s

/-- A field value of a built record.  Dates are carried as proleptic
Gregorian ordinals (Python `date.toordinal`) and datetimes as microseconds
since the Unix epoch; both encodings are bijective images of the Python
objects. -/
inductive Value where
  | vnull : Value
  | vint : Int → Value
  | vfloat : Frac → Value
  | vstr : List Char → Value
  | vdate : Int → Value
  | vdt : Int → Value
  deriving DecidableEq

/-- A built record: a Python `dict` as an insertion-ordered association
list. -/
abbrev Record := List (List Char × Value)

/-- Python `d[k] = v`: replace the value of an existing key in place,
append a fresh key at the end. -/
def dictSet : Record → List Char → Value → Record
  | [], k, v => [(k, v)]
  | (k2, v2) :: t, k, v =>
    if k2 = k then (k2, v) :: t else (k2, v2) :: dictSet t k v

/-- Python `d[k]` as an optional lookup. -/
def rGet : Record → List Char → Option Value
  | [], _ => none
  | kv :: t, k => if kv.1 = k then some kv.2 else rGet t k

/-! ### Datetimes -/

/-- A Python `datetime` by its components. -/
structure PyDateTime where
  year : Nat
  month : Nat
  day : Nat
  hour : Nat
  minute : Nat
  second : Nat
  micro : Nat
  deriving DecidableEq

/-- Gregorian leap year. -/
def isLeap (y : Nat) : Bool :=
  (y % 4 = 0 && y % 100 ≠ 0) || y % 400 = 0

/-- Length of a month. -/
def daysInMonth (y m : Nat) : Nat :=
  if m = 2 then (if isLeap y then 29 else 28)
  else if m = 4 || m = 6 || m = 9 || m = 11 then 30
  else 31

/-- Days in the year strictly before month `m`. -/
def daysBeforeMonth (y m : Nat) : Nat :=
  (List.range m).foldl (fun acc i => if 1 ≤ i then acc + daysInMonth y i else acc) 0

/-- Proleptic Gregorian ordinal of a date, Python `date(y, m, d).toordinal()`:
day 1 is 0001-01-01. -/
def dateOrdinal (y m d : Nat) : Nat :=
  365 * (y - 1) + (y - 1) / 4 - (y - 1) / 100 + (y - 1) / 400 + daysBeforeMonth y m + d

/-- Ordinal of the Unix epoch 1970-01-01. -/
def epochOrdinal : Nat := 719163

/-- A datetime as microseconds since the Unix epoch.  On component-valid
datetimes this is a strictly monotone image of Python's field-by-field
`datetime` comparison, so order and subtraction are computed here. -/
def toMicros (dt : PyDateTime) : Int :=
  (((dateOrdinal dt.year dt.month dt.day : Int) - (epochOrdinal : Int)) * 86400
    + (dt.hour : Int) * 3600 + (dt.minute : Int) * 60 + (dt.second : Int)) * 1000000
    + (dt.micro : Int)

/-- The constant `INVALID_DATE_THRESHOLD = datetime(1900, 1, 1, 0, 0, 0)` as
microseconds. -/
def invalidDateThresholdMicros : Int :=
  toMicros ⟨1900, 1, 1, 0, 0, 0, 0⟩

/-- Function `check_datetime_is_valid` from `transform.py`, with `datetime.now()`
passed explicitly: `False` when the datetime is after `now` or before the
1900-01-01 threshold. -/
def check_datetime_is_valid (now dt : PyDateTime) : Bool :=
  if toMicros dt > toMicros now || toMicros dt < invalidDateThresholdMicros then false
  else true

/-- Longest leading digit run of a character list. -/
def takeDigits (s : List Char) : List Char × List Char :=
  s.span Char.isDigit

/-- Parse one datetime field: a digit run of length within
`[lo, hi]`, returning its value and the rest of the input.  Matches
CPython `_strptime`'s bounded digit regexes for the formats used here. -/
def parseField (lo hi : Nat) (s : List Char) : Option (Nat × List Char) :=
  let (ds, rest) := takeDigits s
  if lo ≤ ds.length && ds.length ≤ hi then some (digitsToNat ds 0, rest) else none

/-- Require a literal character. -/
def parseLit (c : Char) : List Char → Option (List Char)
  | x :: t => if x = c then some t else none
  | [] => none

/-- A bounded digit field followed by a literal separator. -/
def parseFieldLit (lo hi : Nat) (c : Char) (s : List Char) : Option (Nat × List Char) :=
  match parseField lo hi s with
  | some (n, rest) =>
    match parseLit c rest with
    | some rest2 => some (n, rest2)
    | none => none
  | none => none

/-- The `.%f` tail of the with-microseconds format: a literal dot and one
to six digits, padded on the right to a microsecond count.  Without
microseconds nothing is consumed. -/
def parseMicroPart (withMicro : Bool) (s : List Char) : Option (Nat × List Char) :=
  if withMicro then
    match parseLit '.' s with
    | some s2 =>
      let (fs, rest) := takeDigits s2
      if 1 ≤ fs.length && fs.length ≤ 6 then
        some (digitsToNat fs 0 * 10 ^ (6 - fs.length), rest)
      else none
    | none => none
  else some (0, s)

/-- Final step of parsing: nothing may remain and every component must be
in range (the regex bounds plus the `datetime` constructor's). -/
def strptimeFinish (y mo d h mi sec micro : Nat) (s7 : List Char) : Option PyDateTime :=
  if s7.isEmpty && 1 ≤ y && 1 ≤ mo && mo ≤ 12 && 1 ≤ d && d ≤ daysInMonth y mo
      && h ≤ 23 && mi ≤ 59 && sec ≤ 59 then
    some ⟨y, mo, d, h, mi, sec, micro⟩
  else none

/-- Parse the optional `.%f` tail after the seconds. -/
def strptimeStepMicro (withMicro : Bool) (y mo d h mi sec : Nat) (s6 : List Char) :
    Option PyDateTime :=
  match parseMicroPart withMicro s6 with
  | some (micro, s7) => strptimeFinish y mo d h mi sec micro s7
  | none => none

/-- Parse `%S` and continue. -/
def strptimeStepSec (withMicro : Bool) (y mo d h mi : Nat) (s5 : List Char) :
    Option PyDateTime :=
  match parseField 1 2 s5 with
  | some (sec, s6) => strptimeStepMicro withMicro y mo d h mi sec s6
  | none => none

/-- Parse `%M:` and continue. -/
def strptimeStepMin (withMicro : Bool) (y mo d h : Nat) (s4 : List Char) :
    Option PyDateTime :=
  match parseFieldLit 1 2 ':' s4 with
  | some (mi, s5) => strptimeStepSec withMicro y mo d h mi s5
  | none => none

/-- Parse `%H:` and continue. -/
def strptimeStepHour (withMicro : Bool) (y mo d : Nat) (s3 : List Char) :
    Option PyDateTime :=
  match parseFieldLit 1 2 ':' s3 with
  | some (h, s4) => strptimeStepMin withMicro y mo d h s4
  | none => none

/-- Parse `%d ` and continue. -/
def strptimeStepDay (withMicro : Bool) (y mo : Nat) (s2 : List Char) : Option PyDateTime :=
  match parseFieldLit 1 2 ' ' s2 with
  | some (d, s3) => strptimeStepHour withMicro y mo d s3
  | none => none

/-- Parse `%m-` and continue. -/
def strptimeStepMonth (withMicro : Bool) (y : Nat) (s1 : List Char) : Option PyDateTime :=
  match parseFieldLit 1 2 '-' s1 with
  | some (mo, s2) => strptimeStepDay withMicro y mo s2
  | none => none

/-- Python `datetime.strptime(s, fmt)` for the two formats of `transform.py`:
`'%Y-%m-%d %H:%M:%S'` and, when `withMicro`, `'%Y-%m-%d %H:%M:%S.%f'`.
`%Y` is exactly four digits, the other fields one or two, `%f` one to six
(padded on the right); the whole string must be consumed, component ranges
are enforced as CPython's regex plus the `datetime` constructor do, and
`none` models the raised `ValueError`. -/
def strptimeYmdHms (withMicro : Bool) (s : List Char) : Option PyDateTime :=
  match parseFieldLit 4 4 '-' s with
  | some (y, s1) => strptimeStepMonth withMicro y s1
  | none => none

/-- The candidate datetime string of `extract_datetime_from_string`:
`" ".join(input_string.split(" ")[:2])`. -/
def firstTwoTokens (s : List Char) : List Char :=
  joinSpace ((pySplitChar ' ' s).take 2)

/-- Function `extract_datetime_from_string` from `transform.py`, with
`datetime.now()` passed explicitly.  The candidate string is the first two
pieces of a split on the literal space character; the format (with or
without fractional seconds) is selected by whether a `'.'` occurs anywhere
in the whole input line. -/
def extract_datetime_from_string (now : PyDateTime) (s : List Char) : Option PyDateTime :=
  match strptimeYmdHms (s.contains '.') (firstTwoTokens s) with
  | some dt => if check_datetime_is_valid now dt then some dt else none
  | none => none

/-! ### Record keys and fixed strings -/

def kUserId : List Char := "user_id".data
def kRiderId : List Char := "rider_id".data
def kName : List Char := "name".data
def kFirstName : List Char := "first_name".data
def kLastName : List Char := "last_name".data
def kBirthdate : List Char := "birthdate".data
def kDateOfBirth : List Char := "date_of_birth".data
def kHeightCm : List Char := "height_cm".data
def kWeightKg : List Char := "weight_kg".data
def kHeight : List Char := "height".data
def kWeight : List Char := "weight".data
def kEmailAddress : List Char := "email_address".data
def kEmail : List Char := "email".data
def kGender : List Char := "gender".data
def kAccountCreateDate : List Char := "account_create_date".data
def kAccountCreated : List Char := "account_created".data
def kStartTime : List Char := "start_time".data
def kResistance : List Char := "resistance".data
def kElapsedTime : List Char := "elapsed_time".data
def kHeartRate : List Char := "heart_rate".data
def kPower : List Char := "power".data
def kRpm : List Char := "rpm".data
def kAddress : List Char := "address".data
def kFirstLine : List Char := "first_line".data
def kSecondLine : List Char := "second_line".data
def kCity : List Char := "city".data
def kPostcode : List Char := "postcode".data

/-- The list `PREFIXES` from `transform.py`: honorifics dropped from names. -/
def honorifics : List (List Char) :=
  ["mr".data, "mrs".data, "miss".data, "ms".data, "dr".data,
   "mr.".data, "mrs.".data, "miss.".data, "ms.".data, "dr.".data]

def gMale : List Char := "male".data
def gFemale : List Char := "female".data
def gOther : List Char := "other".data

/-! ### Record builders (`transform.py`) -/

/-- Function `timestamp_to_date`: `None` passes through; an integer count of
milliseconds since the Unix epoch becomes the UTC calendar date, carried
as its `toordinal` value; `none` models the error Python raises on a
non-integer or an instant outside the `datetime` year range 1–9999. -/
def timestamp_to_date : PyVal → Option Value
  | .pnull => some .vnull
  | .pint ms =>
    let ord : Int := (epochOrdinal : Int) + Int.fdiv ms 86400000
    if 1 ≤ ord ∧ ord ≤ 3652059 then some (.vdate ord) else none
  | .pstr _ => none

/-- The name-splitting step of `get_rider_from_log_line`: drop a leading
honorific, take `name[:name.rfind(' ')]` as the first name and
`name.split()[-1]` as the last; `none` models the `IndexError` on a
whitespace-only or honorific-only name and the `AttributeError` on a
truthy non-string. -/
def riderNamePart : PyVal → Option (Value × Value)
  | .pnull => some (.vnull, .vnull)
  | .pint n => if n = 0 then some (.vnull, .vnull) else none
  | .pstr s =>
    if s.isEmpty then some (.vnull, .vnull)
    else match pySplitWs s with
      | [] => none
      | p0 :: rest =>
        let nm := if honorifics.contains (pyLower p0) then joinSpace rest else s
        match (pySplitWs nm).getLast? with
        | some ln => some (.vstr (pySliceTo nm (pyRFind ' ' nm)), .vstr ln)
        | none => none

/-- The gender step of `get_rider_from_log_line`: a truthy string whose
lowercase form is neither `male` nor `female` becomes `other`, a truthy
string that is one of the two is stored unchanged, anything falsy becomes
`None`; a truthy non-string raises (`.lower()` on it). -/
def riderGenderValue : PyVal → Option Value
  | .pnull => some .vnull
  | .pint n => if n = 0 then some .vnull else none
  | .pstr s =>
    if s.isEmpty then some .vnull
    else if pyLower s ≠ gMale ∧ pyLower s ≠ gFemale then some (.vstr gOther)
    else some (.vstr s)

/-- The email field: `get_email_from_log_line` re-reads the payload and
stores `.get('email_address')` unconverted. -/
def emailValue : Option PyVal → Value
  | none => .vnull
  | some .pnull => .vnull
  | some (.pint n) => .vint n
  | some (.pstr s) => .vstr s

/-- The closing loop of `get_rider_from_log_line`: every field equal to
the `int` sentinel `-1` becomes `None`. -/
def finalizeRider (r : Record) : Record :=
  r.map (fun kv => (kv.1, if kv.2 = Value.vint (-1) then Value.vnull else kv.2))

/-- Function `get_rider_from_log_line` over the decoded payload mapping; `none`
models an uncaught exception (bad `int()` conversion, a name that strips
to nothing, a truthy non-string gender, an out-of-range timestamp). -/
def get_rider_from_log_line (p : Payload) : Option Record :=
  match pyIntOfVal (pGetD p kUserId (.pint (-1))),
      riderNamePart (pGetD p kName .pnull),
      timestamp_to_date (pGetD p kDateOfBirth .pnull),
      pyIntOfVal (pGetD p kHeightCm (.pint (-1))),
      pyIntOfVal (pGetD p kWeightKg (.pint (-1))),
      riderGenderValue (pGetD p kGender .pnull),
      timestamp_to_date (pGetD p kAccountCreateDate .pnull) with
  | some uid, some np, some bd, some ht, some wt, some g, some ac =>
    some (finalizeRider
      [(kRiderId, .vint uid), (kFirstName, np.1), (kLastName, np.2), (kBirthdate, bd),
       (kHeight, .vint ht), (kWeight, .vint wt),
       (kEmail, emailValue (pGet p kEmailAddress)), (kGender, g), (kAccountCreated, ac)])
  | _, _, _, _, _, _, _ => none

/-- Function `get_ride_data_from_log_line`: `rider_id` from `user_id` (a missing
key is caught and becomes `None`, a bad `int()` conversion raises) and
`start_time` as the extracted line timestamp minus the half-second
calibration offset. -/
def get_ride_data_from_log_line (now : PyDateTime) (line : List Char) (p : Payload) :
    Option Record :=
  match (match pGet p kUserId with
         | none => some Value.vnull
         | some v => (pyIntOfVal v).map .vint) with
  | some rid =>
    some [(kRiderId, rid),
          (kStartTime,
            match extract_datetime_from_string now line with
            | some dt => .vdt (toMicros dt - 500000)
            | none => .vnull)]
  | none => none

/-- The five-key dictionary the reading builder starts from. -/
def readingInit : Record :=
  [(kResistance, .vnull), (kElapsedTime, .vnull), (kHeartRate, .vnull),
   (kPower, .vnull), (kRpm, .vnull)]

/-- Resistance from the first line of a reading pair: last `;`-piece, split
on `=`; the `IndexError` of a missing `=` is caught (field stays `None`)
but a non-integer value raises an uncaught `ValueError` (`none`). -/
def readingResistance (line0 : List Char) (r : Record) : Option Record :=
  match pySplitChar '=' (pyLast (pySplitChar ';' line0)) with
  | _ :: p1 :: _ =>
    match pyInt (pyStrip p1) with
    | some n => some (dictSet r kResistance (.vint n))
    | none => none
  | _ => some (dictSet r kResistance .vnull)

/-- Elapsed time from the first line: populated only when the extracted
timestamp is strictly after `start_time` (given as epoch microseconds),
as the truncated whole-second difference; otherwise `None`. -/
def readingElapsed (now : PyDateTime) (startMicros : Int) (line0 : List Char) (r : Record) :
    Record :=
  match extract_datetime_from_string now line0 with
  | some dt =>
    if toMicros dt > startMicros then
      dictSet r kElapsedTime (.vint ((toMicros dt - startMicros).tdiv 1000000))
    else dictSet r kElapsedTime .vnull
  | none => dictSet r kElapsedTime .vnull

/-- The `heart_rate` fragment of the telemetry line: first `;` piece,
text after its first `=`. -/
def telemetryHeart (line1 : List Char) : Option Int :=
  match pySplitChar ';' line1 with
  | a0 :: _ =>
    match pySplitChar '=' a0 with
    | _ :: h1 :: _ => pyInt (pyStrip h1)
    | _ => none
  | [] => none

/-- The `power` fragment: text after the last `=` of the whole line. -/
def telemetryPower (line1 : List Char) : Option Frac :=
  pyFloat (pyStrip (pyLast (pySplitChar '=' line1)))

/-- The `rpm` fragment: second `;` piece, text after its first `=`. -/
def telemetryRpm (line1 : List Char) : Option Int :=
  match pySplitChar ';' line1 with
  | _ :: a1 :: _ =>
    match pySplitChar '=' a1 with
    | _ :: r1 :: _ => pyInt (pyStrip r1)
    | _ => none
  | _ => none

/-- Telemetry from the second line: `heart_rate`, `power` and `rpm`, each
raising (`none`) on a missing `=`, a missing `;` piece or a malformed
number — none of these are caught in the source. -/
def readingTelemetry (line1 : List Char) (r : Record) : Option Record :=
  match telemetryHeart line1, telemetryPower line1, telemetryRpm line1 with
  | some hr, some pw, some rpmv =>
    some (dictSet (dictSet (dictSet r kHeartRate (.vint hr)) kPower (.vfloat pw))
      kRpm (.vint rpmv))
  | _, _, _ => none

/-- Function `get_data_from_reading_line_pair`: split the pair on newlines, fill
resistance and elapsed time from the first line, return after the first
line when it is alone, otherwise fill the telemetry fields from the
second line. -/
def get_data_from_reading_line_pair (now : PyDateTime) (pair : List Char) (startMicros : Int) :
    Option Record :=
  match pySplitChar '\n' pair with
  | [] => some readingInit
  | [line0] => (readingResistance line0 readingInit).map (readingElapsed now startMicros line0)
  | line0 :: line1 :: _ =>
    match readingResistance line0 readingInit with
    | some r1 => readingTelemetry line1 (readingElapsed now startMicros line0 r1)
    | none => none

/-- Function `get_address_from_log_line`: all four fields `None` when the payload
has no `address` key; otherwise positional comma splitting — first piece,
last two pieces, and the second piece exactly when there are four.  A
single-piece address raises an uncaught `IndexError` at `[-2]` (`none`),
as does a non-string address value. -/
def get_address_from_log_line (p : Payload) : Option Record :=
  match pGet p kAddress with
  | none =>
    some [(kFirstLine, .vnull), (kSecondLine, .vnull), (kCity, .vnull), (kPostcode, .vnull)]
  | some (.pstr s) =>
    let ls := pySplitChar ',' s
    match ls with
    | a0 :: a1 :: _ =>
      some [(kFirstLine, .vstr (pyStrip a0)), (kCity, .vstr (pyStrip (pySecondLast ls))),
            (kPostcode, .vstr (pyStrip (pyLast ls))),
            (kSecondLine, if ls.length = 4 then .vstr (pyStrip a1) else .vnull)]
    | _ => none
  | some _ => none

/-! ### Double-precision model and heart-rate formulas
(`validate_heart_rate.py` and `dashboard/utilities.py`) -/

/-- A calendar date (Python `datetime.date` components). -/
structure PyDate where
  year : Nat
  month : Nat
  day : Nat
  deriving DecidableEq

/-- Fuel-driven binary logarithm (structural, so it evaluates in the
kernel; the fuel covers every magnitude this development meets). -/
def natLog2F : Nat → Nat → Nat
  | 0, _ => 0
  | fuel + 1, n => if n ≤ 1 then 0 else natLog2F fuel (n / 2) + 1

/-- The power `2^k` as a `Frac`, for `k` of either sign. -/
def pow2F (k : Int) : Frac :=
  if 0 ≤ k then ⟨((2 : Nat) ^ k.toNat : Nat), 1⟩ else ⟨1, 2 ^ (-k).toNat⟩

/-- Round a `Frac` to the nearest integer, ties to even — exactly Python's
`round` on an exact value. -/
def roundHalfEvenF (q : Frac) : Int :=
  let n := q.floorI
  let rem := q.num - n * (q.den : Int)
  if 2 * rem < (q.den : Int) then n
  else if (q.den : Int) < 2 * rem then n + 1
  else if n % 2 = 0 then n else n + 1

/-- Round an exact rational to the nearest IEEE-754 double
(round-to-nearest, ties-to-even), as the exact value of that double.
Subnormal and overflow ranges are not modelled; every value the
heart-rate formulas produce is normal and far from overflow. -/
def roundToDouble (q : Frac) : Frac :=
  if q.num = 0 then ⟨0, 1⟩
  else
    let a := q.abs
    let e0 : Int := (natLog2F 4096 a.num.natAbs : Int) - (natLog2F 4096 a.den : Int)
    let e := if a.ltB (pow2F e0) then e0 - 1 else e0
    let scale := pow2F (e - 52)
    let n := roundHalfEvenF (a.div scale)
    let m := Frac.mul ⟨n, 1⟩ scale
    if 0 < q.num then m else m.neg

/-- Double multiplication: exact product, correctly rounded. -/
def fmul (a b : Frac) : Frac := roundToDouble (Frac.mul a b)

/-- Double subtraction: exact difference, correctly rounded. -/
def fsub (a b : Frac) : Frac := roundToDouble (Frac.sub a b)

/-- The double written `0.7` in the source. -/
def lit07 : Frac := roundToDouble ⟨7, 10⟩

/-- The double written `0.88` in the source. -/
def lit088 : Frac := roundToDouble ⟨22, 25⟩

/-- An `int` converted to a double.  Modelled as exact: the conversion is
exact below `2^53`, which covers every age a calendar difference of
plausible dates can produce. -/
def floatOfInt (n : Int) : Frac := Frac.ofInt n

namespace ValidateHR

/-- Function `calculate_age` from `validate_heart_rate.py`, with the
`datetime.utcnow()` default passed explicitly: calendar-year difference,
minus one when the birthday has not yet occurred this year (Python's
tuple comparison `(c.month, c.day) < (b.month, b.day)`). -/
def calculate_age (birthdate currentDate : PyDate) : Int :=
  (currentDate.year : Int) - (birthdate.year : Int) -
    (if currentDate.month < birthdate.month
        ∨ (currentDate.month = birthdate.month ∧ currentDate.day < birthdate.day)
     then 1 else 0)

/-- Function `calculate_max_heart_rate` from `validate_heart_rate.py`: Gulati
`round(206 - 0.88*age)` for female/other/missing gender, Fox
`round(220 - age)` for males under 40, Tanaka `round(208 - 0.7*age)`
otherwise — in Python float arithmetic with banker's rounding. -/
def calculate_max_heart_rate (birthdate currentDate : PyDate) (gender : Option (List Char)) :
    Int :=
  let age := calculate_age birthdate currentDate
  if gender = some gFemale ∨ gender = some gOther ∨ gender = none then
    roundHalfEvenF (fsub (Frac.ofInt 206) (fmul lit088 (floatOfInt age)))
  else if gender = some gMale ∧ age < 40 then 220 - age
  else roundHalfEvenF (fsub (Frac.ofInt 208) (fmul lit07 (floatOfInt age)))

/-- Function `calculate_min_heart_rate` from `validate_heart_rate.py`: the
resting-rate floor table by gender group and age bracket. -/
def calculate_min_heart_rate (birthdate currentDate : PyDate) (gender : Option (List Char)) :
    Int :=
  let age := calculate_age birthdate currentDate
  if gender = some gFemale ∨ gender = some gOther ∨ gender = none then
    if 18 ≤ age ∧ age ≤ 39 then 45
    else if 40 ≤ age ∧ age ≤ 64 then 52
    else 57
  else
    if 18 ≤ age ∧ age ≤ 39 then 40
    else if 40 ≤ age ∧ age ≤ 64 then 47
    else 52

end ValidateHR

namespace DashUtils

/-- Function `calculate_age` from `dashboard/utilities.py` (textually identical to
the pipeline copy). -/
def calculate_age (birthdate currentDate : PyDate) : Int :=
  (currentDate.year : Int) - (birthdate.year : Int) -
    (if currentDate.month < birthdate.month
        ∨ (currentDate.month = birthdate.month ∧ currentDate.day < birthdate.day)
     then 1 else 0)

/-- Function `calculate_max_heart_rate` from `dashboard/utilities.py`: same
three-way dispatch, reading its inputs from a row list instead of a
dictionary. -/
def calculate_max_heart_rate (birthdate currentDate : PyDate) (gender : Option (List Char)) :
    Int :=
  let age := calculate_age birthdate currentDate
  if gender = some gFemale ∨ gender = some gOther ∨ gender = none then
    roundHalfEvenF (fsub (Frac.ofInt 206) (fmul lit088 (floatOfInt age)))
  else if gender = some gMale ∧ age < 40 then 220 - age
  else roundHalfEvenF (fsub (Frac.ofInt 208) (fmul lit07 (floatOfInt age)))

/-- Function `calculate_min_heart_rate` from `dashboard/utilities.py`. -/
def calculate_min_heart_rate (birthdate currentDate : PyDate) (gender : Option (List Char)) :
    Int :=
  let age := calculate_age birthdate currentDate
  if gender = some gFemale ∨ gender = some gOther ∨ gender = none then
    if 18 ≤ age ∧ age ≤ 39 then 45
    else if 40 ≤ age ∧ age ≤ 64 then 52
    else 57
  else
    if 18 ≤ age ∧ age ≤ 39 then 40
    else if 40 ≤ age ∧ age ≤ 64 then 47
    else 52

end DashUtils

section SanityChecks

example : pySplitChar ',' "a,,b".data = ["a".data, [], "b".data] := by decide

example : pySplitWs "  Dr.  Jane   Smith ".data = ["Dr.".data, "Jane".data, "Smith".data] := by
  decide

example : pyInt " 42 ".data = some 42 := by decide

example : pyInt "4a".data = none := by decide

example : pyFloat "12.6423".data = some ⟨126423, 10000⟩ := by decide

example : dateOrdinal 1970 1 1 = 719163 := by decide

example : strptimeYmdHms false "2023-05-04 10:20:30".data = some ⟨2023, 5, 4, 10, 20, 30, 0⟩ := by
  decide

example : strptimeYmdHms true "2023-05-04 10:20:30.25".data
    = some ⟨2023, 5, 4, 10, 20, 30, 250000⟩ := by decide

example : strptimeYmdHms true "2023-05-04 10:20:30".data = none := by decide

example : strptimeYmdHms false "2023-02-29 10:20:30".data = none := by decide

example :
    extract_datetime_from_string ⟨2023, 6, 1, 0, 0, 0, 0⟩ "2023-05-04 10:20:30 rest".data
      = some ⟨2023, 5, 4, 10, 20, 30, 0⟩ := by decide

example :
    extract_datetime_from_string ⟨2023, 6, 1, 0, 0, 0, 0⟩ "2023-05-04 10:20:30 v.2".data
      = none := by decide

example :
    extract_datetime_from_string ⟨2023, 6, 1, 0, 0, 0, 0⟩ "1899-12-31 23:59:59 x".data
      = none := by decide

example :
    get_rider_from_log_line [(kName, .pstr "Dr. Jane Mary Smith".data)]
      = some [(kRiderId, .vnull), (kFirstName, .vstr "Jane Mary".data),
              (kLastName, .vstr "Smith".data), (kBirthdate, .vnull),
              (kHeight, .vnull), (kWeight, .vnull), (kEmail, .vnull), (kGender, .vnull),
              (kAccountCreated, .vnull)] := by decide

example :
    (get_address_from_log_line
        [(kAddress, .pstr "63 Studio, Nursery Avenue, London, LA1 34A".data)]).bind
        (fun r => rGet r kSecondLine)
      = some (.vstr "Nursery Avenue".data) := by decide

example :
    get_address_from_log_line [(kAddress, .pstr "63 Studio".data)] = none := by decide

example :
    get_data_from_reading_line_pair ⟨2023, 6, 1, 0, 0, 0, 0⟩
        ("2023-05-04 10:20:30 mendoza v9: [INFO]: Ride - duration = 10; resistance = 30\n"
          ++ "2023-05-04 10:20:31 mendoza v9: [INFO]: Telemetry - hrt = 84; rpm = 20; power = 12.5").data
        (toMicros ⟨2023, 5, 4, 10, 20, 0, 0⟩)
      = some [(kResistance, .vint 30), (kElapsedTime, .vint 30), (kHeartRate, .vint 84),
              (kPower, .vfloat ⟨125, 10⟩), (kRpm, .vint 20)] := by decide

-- the doubles written 0.7 and 0.88, checked against their exact IEEE-754 values
example : lit07 = ⟨6305039478318694, 2 ^ 53⟩ := by decide

example : lit088 = ⟨7926335344172073, 2 ^ 53⟩ := by decide

-- float check: 0.7 * 45 is the double 8866461766385663 / 2^48 and
-- 208 - it is exactly 176.5, which Python's round takes to 176
example :
    (fmul lit07 (floatOfInt 45)).num = 8866461766385663
      ∧ (fmul lit07 (floatOfInt 45)).den = 2 ^ 48 := by decide

example :
    ValidateHR.calculate_max_heart_rate ⟨1978, 1, 20⟩ ⟨2023, 6, 1⟩ (some gMale) = 176 := by
  decide

example :
    ValidateHR.calculate_max_heart_rate ⟨1993, 1, 20⟩ ⟨2023, 6, 1⟩ (some gFemale) = 180 := by
  decide

example :
    ValidateHR.calculate_min_heart_rate ⟨1978, 1, 20⟩ ⟨2023, 6, 1⟩ (some gMale) = 47 := by
  decide

end SanityChecks

/-! ### Association-list dictionary lemmas -/

theorem rGet_dictSet_self (r : Record) (k : List Char) (v : Value) :
    rGet (dictSet r k v) k = some v := by
  induction r with
  | nil => simp [dictSet, rGet]
  | cons kv t ih =>
    by_cases h : kv.1 = k
    · simp [dictSet, h, rGet]
    · simp [dictSet, h, rGet, ih]

theorem rGet_dictSet_ne (r : Record) (k k2 : List Char) (v : Value) (h : k2 ≠ k) :
    rGet (dictSet r k v) k2 = rGet r k2 := by
  have h2 : ¬ (k = k2) := fun hh => h hh.symm
  induction r with
  | nil => simp [dictSet, rGet, h2]
  | cons kv t ih =>
    by_cases hk : kv.1 = k
    · simp [dictSet, hk, rGet, h2]
    · by_cases hk2 : kv.1 = k2
      · simp [dictSet, hk, rGet, hk2, h]
      · simp [dictSet, hk, rGet, hk2, ih]

theorem map_fst_dictSet (r : Record) (k : List Char) (v : Value)
    (h : k ∈ r.map Prod.fst) : (dictSet r k v).map Prod.fst = r.map Prod.fst := by
  induction r with
  | nil => simp at h
  | cons kv t ih =>
    by_cases hk : kv.1 = k
    · simp [dictSet, hk]
    · simp only [List.map_cons, List.mem_cons] at h
      rcases h with h | h

      · exact absurd h.symm hk
      · simp [dictSet, hk, ih h]

theorem mem_dictSet (r : Record) (k : List Char) (v : Value) (x : List Char × Value)
    (hx : x ∈ dictSet r k v) : x.2 = v ∨ x ∈ r := by
  induction r with
  | nil =>
    simp [dictSet] at hx
    subst hx
    exact Or.inl rfl
  | cons kv t ih =>
    by_cases hk : kv.1 = k
    · simp only [dictSet, hk, ite_true, List.mem_cons] at hx
      rcases hx with hx | hx
      · subst hx
        exact Or.inl rfl
      · exact Or.inr (List.mem_cons_of_mem _ hx)
    · simp only [dictSet, hk, ite_false, List.mem_cons] at hx
      rcases hx with hx | hx
      · exact Or.inr (by simp [hx])
      · rcases ih hx with h | h
        · exact Or.inl h
        · exact Or.inr (List.mem_cons_of_mem _ h)

/-! ### C9: the two maximum-heart-rate implementations -/

/-- C9 counterexample: the claim asserts some age and gender on which the
pipeline and dashboard maximum-heart-rate implementations disagree; in
the source both carry the conservative female/other/null branch and they
agree everywhere, so no such input exists. -/
theorem C9_counterexample :
    ¬ ∃ (b c : PyDate) (g : Option (List Char)),
        ValidateHR.calculate_max_heart_rate b c g ≠ DashUtils.calculate_max_heart_rate b c g := by
  rintro ⟨b, c, g, h⟩
  exact h rfl

/-- C9 (amended): the two maximum-heart-rate implementations in
`validate_heart_rate.py` and `dashboard/utilities.py` return the same
value for every birthdate, reference date and gender — both dispatch
female/other/null to the Gulati formula, males under 40 to Fox and the
rest to Tanaka. -/
theorem C9_implementations_agree (b c : PyDate) (g : Option (List Char)) :
    ValidateHR.calculate_max_heart_rate b c g = DashUtils.calculate_max_heart_rate b c g :=
  rfl

/-! ### C5: single-token names -/

/-- C5: the spec says a name that is a single token after honorific
stripping yields identical first and last names, but
`get_rider_from_log_line` computes `name[:name.rfind(' ')]`, and `rfind`
returns `-1` on a spaceless string, so the first name is the token with
its final character cut off: name `Smith` gives first name `Smit` and
last name `Smith`. -/
theorem C5_single_token_truncates :
    (get_rider_from_log_line [(kName, .pstr "Smith".data)]).bind (fun r => rGet r kFirstName)
        = some (.vstr "Smit".data)
      ∧ (get_rider_from_log_line [(kName, .pstr "Smith".data)]).bind (fun r => rGet r kLastName)
        = some (.vstr "Smith".data)
      ∧ "Smit".data ≠ "Smith".data := by decide

/-! ### C2: heart-rate zone formulas and the spot values -/

/-- C2 counterexample: the claim gives max 177 for a male rider of age
45, but `round(208 - 0.7*45)` in Python double arithmetic is
`round(176.5) = 176` (ties to even), which the embedded double model
reproduces. -/
theorem C2_counterexample :
    ValidateHR.calculate_age ⟨1978, 1, 20⟩ ⟨2023, 6, 1⟩ = 45
      ∧ ValidateHR.calculate_max_heart_rate ⟨1978, 1, 20⟩ ⟨2023, 6, 1⟩ (some gMale) = 176
      ∧ (176 : Int) ≠ 177 := by decide

/-- C2 (amended): the calculator uses Python `round` (ties to even) of the
double-precision value of `208 - 0.7*age` for males of age at least 40
and of `206 - 0.88*age` for female/other/missing gender; age 45 male
yields max 176 (not 177) and min 47, age 30 female yields max 180 and
min 45. -/
theorem C2_heart_rate_zone_amended :
    (∀ b c : PyDate, 40 ≤ ValidateHR.calculate_age b c →
      ValidateHR.calculate_max_heart_rate b c (some gMale)
        = roundHalfEvenF (fsub (Frac.ofInt 208)
            (fmul lit07 (floatOfInt (ValidateHR.calculate_age b c)))))
    ∧ (∀ (b c : PyDate) (g : Option (List Char)),
        g = some gFemale ∨ g = some gOther ∨ g = none →
        ValidateHR.calculate_max_heart_rate b c g
          = roundHalfEvenF (fsub (Frac.ofInt 206)
              (fmul lit088 (floatOfInt (ValidateHR.calculate_age b c)))))
    ∧ (ValidateHR.calculate_age ⟨1978, 1, 20⟩ ⟨2023, 6, 1⟩ = 45
        ∧ ValidateHR.calculate_max_heart_rate ⟨1978, 1, 20⟩ ⟨2023, 6, 1⟩ (some gMale) = 176
        ∧ ValidateHR.calculate_min_heart_rate ⟨1978, 1, 20⟩ ⟨2023, 6, 1⟩ (some gMale) = 47)
    ∧ (ValidateHR.calculate_age ⟨1993, 1, 20⟩ ⟨2023, 6, 1⟩ = 30
        ∧ ValidateHR.calculate_max_heart_rate ⟨1993, 1, 20⟩ ⟨2023, 6, 1⟩ (some gFemale) = 180
        ∧ ValidateHR.calculate_min_heart_rate ⟨1993, 1, 20⟩ ⟨2023, 6, 1⟩ (some gFemale) = 45) := by
  refine ⟨?_, ?_, by decide, by decide⟩
  · intro b c h
    unfold ValidateHR.calculate_max_heart_rate
    rw [if_neg (by decide), if_neg (fun hc => absurd hc.2 (by omega))]
  · intro b c g hg
    unfold ValidateHR.calculate_max_heart_rate
    rw [if_pos hg]

/-- C2 witness: the two formula branches applied at concrete riders. -/
theorem C2_heart_rate_zone_witness :
    ValidateHR.calculate_max_heart_rate ⟨1978, 1, 20⟩ ⟨2023, 6, 1⟩ (some gMale)
      = roundHalfEvenF (fsub (Frac.ofInt 208) (fmul lit07 (floatOfInt 45)))
    ∧ ValidateHR.calculate_max_heart_rate ⟨1990, 2, 2⟩ ⟨2023, 6, 1⟩ none
      = roundHalfEvenF (fsub (Frac.ofInt 206) (fmul lit088 (floatOfInt 33))) := by
  constructor
  · have h := C2_heart_rate_zone_amended.1 ⟨1978, 1, 20⟩ ⟨2023, 6, 1⟩ (by decide)
    have hage : ValidateHR.calculate_age ⟨1978, 1, 20⟩ ⟨2023, 6, 1⟩ = 45 := by decide
    rwa [hage] at h
  · have h := C2_heart_rate_zone_amended.2.1 ⟨1990, 2, 2⟩ ⟨2023, 6, 1⟩ none (by simp)
    have hage : ValidateHR.calculate_age ⟨1990, 2, 2⟩ ⟨2023, 6, 1⟩ = 33 := by decide
    rwa [hage] at h

/-! ### C7: the address parser -/

/-- C7: for a payload whose address string splits into at least the two
positional pieces the parser consumes, the built record has the first
(stripped) piece as `first_line`, the last two as `city` and `postcode`,
and the second piece as `second_line` exactly when there are four pieces;
a payload without an address key gives all four fields as null. -/
theorem C7_address_fields :
    (∀ (p : Payload) (s : List Char),
      pGet p kAddress = some (.pstr s) → 2 ≤ (pySplitChar ',' s).length →
      ∃ r, get_address_from_log_line p = some r
        ∧ rGet r kFirstLine = some (.vstr (pyStrip (pySplitChar ',' s).headI))
        ∧ rGet r kCity = some (.vstr (pyStrip (pySecondLast (pySplitChar ',' s))))
        ∧ rGet r kPostcode = some (.vstr (pyStrip (pyLast (pySplitChar ',' s))))
        ∧ rGet r kSecondLine
            = some (if (pySplitChar ',' s).length = 4
                    then .vstr (pyStrip (pySplitChar ',' s).tail.headI) else .vnull))
    ∧ (∀ p : Payload, pGet p kAddress = none →
        get_address_from_log_line p
          = some [(kFirstLine, .vnull), (kSecondLine, .vnull),
                  (kCity, .vnull), (kPostcode, .vnull)])
    ∧ get_address_from_log_line
        [(kAddress, .pstr "63 Studio, Nursery Avenue, London, LA1 34A".data)]
        = some [(kFirstLine, .vstr "63 Studio".data), (kCity, .vstr "London".data),
                (kPostcode, .vstr "LA1 34A".data), (kSecondLine, .vstr "Nursery Avenue".data)]
    ∧ (get_address_from_log_line [(kAddress, .pstr "1 Road, Town, PC1 1AA".data)]).bind
        (fun r => rGet r kSecondLine) = some .vnull := by
  refine ⟨?_, ?_, by decide, by decide⟩
  · intro p s hp hlen
    obtain ⟨a0, a1, rest, hls⟩ : ∃ a0 a1 rest, pySplitChar ',' s = a0 :: a1 :: rest := by
      match hq : pySplitChar ',' s with
      | [] => rw [hq] at hlen; simp at hlen
      | [a0] => rw [hq] at hlen; simp at hlen
      | a0 :: a1 :: rest => exact ⟨a0, a1, rest, rfl⟩
    refine ⟨[(kFirstLine, .vstr (pyStrip a0)),
             (kCity, .vstr (pyStrip (pySecondLast (a0 :: a1 :: rest)))),
             (kPostcode, .vstr (pyStrip (pyLast (a0 :: a1 :: rest)))),
             (kSecondLine, if (a0 :: a1 :: rest).length = 4
                           then .vstr (pyStrip a1) else .vnull)], ?_, ?_, ?_, ?_, ?_⟩
    · simp only [get_address_from_log_line, hp, hls]
    · rw [hls]; rfl
    · rw [hls]; rfl
    · rw [hls]; rfl
    · rw [hls]; rfl
  · intro p hp
    simp only [get_address_from_log_line, hp]

/-- C7 witness: the two quantified parts applied at concrete payloads. -/
theorem C7_address_fields_witness :
    (∃ r, get_address_from_log_line [(kAddress, .pstr "1 Road, Town, PC1 1AA".data)] = some r
      ∧ rGet r kFirstLine
          = some (.vstr (pyStrip (pySplitChar ',' "1 Road, Town, PC1 1AA".data).headI))
      ∧ rGet r kCity
          = some (.vstr (pyStrip (pySecondLast (pySplitChar ',' "1 Road, Town, PC1 1AA".data))))
      ∧ rGet r kPostcode
          = some (.vstr (pyStrip (pyLast (pySplitChar ',' "1 Road, Town, PC1 1AA".data))))
      ∧ rGet r kSecondLine
          = some (if (pySplitChar ',' "1 Road, Town, PC1 1AA".data).length = 4
                  then .vstr (pyStrip (pySplitChar ',' "1 Road, Town, PC1 1AA".data).tail.headI)
                  else .vnull))
    ∧ get_address_from_log_line []
        = some [(kFirstLine, .vnull), (kSecondLine, .vnull),
                (kCity, .vnull), (kPostcode, .vnull)] :=
  ⟨C7_address_fields.1 [(kAddress, .pstr "1 Road, Town, PC1 1AA".data)]
      "1 Road, Town, PC1 1AA".data (by decide) (by decide),
    C7_address_fields.2.1 [] rfl⟩

/-! ### C8: the gender field -/

/-- Inversion of a successful rider build: every conversion step
succeeded and the record is the sentinel-normalized field list. -/
theorem get_rider_inv (p : Payload) (r : Record)
    (h : get_rider_from_log_line p = some r) :
    ∃ uid np bd ht wt g ac,
      pyIntOfVal (pGetD p kUserId (.pint (-1))) = some uid
      ∧ riderNamePart (pGetD p kName .pnull) = some np
      ∧ timestamp_to_date (pGetD p kDateOfBirth .pnull) = some bd
      ∧ pyIntOfVal (pGetD p kHeightCm (.pint (-1))) = some ht
      ∧ pyIntOfVal (pGetD p kWeightKg (.pint (-1))) = some wt
      ∧ riderGenderValue (pGetD p kGender .pnull) = some g
      ∧ timestamp_to_date (pGetD p kAccountCreateDate .pnull) = some ac
      ∧ r = finalizeRider
          [(kRiderId, .vint uid), (kFirstName, np.1), (kLastName, np.2), (kBirthdate, bd),
           (kHeight, .vint ht), (kWeight, .vint wt),
           (kEmail, emailValue (pGet p kEmailAddress)), (kGender, g),
           (kAccountCreated, ac)] := by
  unfold get_rider_from_log_line at h
  split at h
  · rename_i uid np bd ht wt g ac h1 h2 h3 h4 h5 h6 h7
    injection h with h8
    exact ⟨uid, np, bd, ht, wt, g, ac, h1, h2, h3, h4, h5, h6, h7, h8.symm⟩
  · exact absurd h (by simp)

/-- The gender slot of the finalized rider record. -/
theorem rGet_rider_gender (uid : Int) (np : Value × Value) (bd : Value) (ht wt : Int)
    (em g ac : Value) :
    rGet (finalizeRider
        [(kRiderId, .vint uid), (kFirstName, np.1), (kLastName, np.2), (kBirthdate, bd),
         (kHeight, .vint ht), (kWeight, .vint wt), (kEmail, em), (kGender, g),
         (kAccountCreated, ac)]) kGender
      = some (if g = Value.vint (-1) then Value.vnull else g) := rfl

/-- C8 counterexample: gender text `Male` is truthy and its lowercase form
is in the accepted pair, so the builder stores it verbatim — the stored
value is none of `male`, `female`, `other` or null, so the field does not
lie in the claimed closed set. -/
theorem C8_counterexample :
    (get_rider_from_log_line [(kGender, .pstr "Male".data)]).bind (fun r => rGet r kGender)
        = some (.vstr "Male".data)
      ∧ Value.vstr "Male".data ≠ .vstr gMale
      ∧ Value.vstr "Male".data ≠ .vstr gFemale
      ∧ Value.vstr "Male".data ≠ .vstr gOther
      ∧ Value.vstr "Male".data ≠ .vnull := by decide

/-- C8 (amended): whenever the rider builder returns, the gender field is
null, `other`, or a verbatim copy of the payload text whose lowercase
form is `male` or `female` (so the closed set holds up to letter case):
missing or falsy gender gives null, truthy text outside the pair gives
`other`, truthy text whose lowercase form is in the pair is kept
unchanged. -/
theorem C8_gender_closed_set_amended :
    ∀ (p : Payload) (r : Record), get_rider_from_log_line p = some r →
      ∃ v, rGet r kGender = some v
        ∧ (v = .vnull ∨ v = .vstr gOther
            ∨ ∃ s, v = .vstr s ∧ (pyLower s = gMale ∨ pyLower s = gFemale))
        ∧ (pGetD p kGender .pnull = .pnull → v = .vnull)
        ∧ (∀ s, pGetD p kGender .pnull = .pstr s → s.isEmpty = false →
            pyLower s ≠ gMale → pyLower s ≠ gFemale → v = .vstr gOther)
        ∧ (∀ s, pGetD p kGender .pnull = .pstr s → s.isEmpty = false →
            (pyLower s = gMale ∨ pyLower s = gFemale) → v = .vstr s) := by
  intro p r h
  obtain ⟨uid, np, bd, ht, wt, g, ac, _, _, _, _, _, h6, _, h8⟩ := get_rider_inv p r h
  subst h8
  rw [rGet_rider_gender]
  refine ⟨_, rfl, ?_, ?_, ?_, ?_⟩
  · match hv : pGetD p kGender .pnull with
    | .pnull =>
      rw [hv] at h6
      simp only [riderGenderValue, Option.some.injEq] at h6
      subst h6; simp
    | .pint n =>
      rw [hv] at h6
      simp only [riderGenderValue] at h6
      split_ifs at h6
      injection h6 with h6
      subst h6; simp
    | .pstr s =>
      rw [hv] at h6
      simp only [riderGenderValue] at h6
      split_ifs at h6 with hemp hoth
      · injection h6 with h6; subst h6; simp
      · injection h6 with h6; subst h6; simp
      · injection h6 with h6
        subst h6
        push_neg at hoth
        have hml : pyLower s = gMale ∨ pyLower s = gFemale := by
          by_cases hm : pyLower s = gMale
          · exact Or.inl hm
          · exact Or.inr (hoth hm)
        simp only [show (Value.vstr s = Value.vint (-1)) = False by simp, if_false]
        exact Or.inr (Or.inr ⟨s, rfl, hml⟩)
  · intro hv
    rw [hv] at h6
    simp only [riderGenderValue, Option.some.injEq] at h6
    subst h6; simp
  · intro s hv hemp hm hf
    rw [hv] at h6
    simp only [riderGenderValue, hemp, Bool.false_eq_true, if_false,
      if_pos (And.intro hm hf), Option.some.injEq] at h6
    subst h6; simp
  · intro s hv hemp hmf
    rw [hv] at h6
    have hno : ¬ (pyLower s ≠ gMale ∧ pyLower s ≠ gFemale) := by
      rcases hmf with hm | hf
      · exact fun hc => hc.1 hm
      · exact fun hc => hc.2 hf
    simp only [riderGenderValue, hemp, Bool.false_eq_true, if_false, hno,
      Option.some.injEq] at h6
    subst h6
    simp

/-- C8 witness: the amended statement applied to a rider whose gender
text is `MALE`. -/
theorem C8_gender_closed_set_witness :
    ∃ v, rGet ((get_rider_from_log_line [(kGender, .pstr "MALE".data)]).getD []) kGender
        = some v
      ∧ (v = .vnull ∨ v = .vstr gOther
          ∨ ∃ s, v = .vstr s ∧ (pyLower s = gMale ∨ pyLower s = gFemale)) := by
  obtain ⟨v, h1, h2, -, -, -⟩ :=
    C8_gender_closed_set_amended [(kGender, .pstr "MALE".data)]
      ((get_rider_from_log_line [(kGender, .pstr "MALE".data)]).getD []) (by decide)
  exact ⟨v, h1, h2⟩

/-! ### C6: multi-token names -/

/-- The first-name slot of the finalized rider record. -/
theorem rGet_rider_first (uid : Int) (f l : Value) (bd : Value) (ht wt : Int)
    (em g ac : Value) :
    rGet (finalizeRider
        [(kRiderId, .vint uid), (kFirstName, f), (kLastName, l), (kBirthdate, bd),
         (kHeight, .vint ht), (kWeight, .vint wt), (kEmail, em), (kGender, g),
         (kAccountCreated, ac)]) kFirstName
      = some (if f = Value.vint (-1) then Value.vnull else f) := rfl

/-- The last-name slot of the finalized rider record. -/
theorem rGet_rider_last (uid : Int) (f l : Value) (bd : Value) (ht wt : Int)
    (em g ac : Value) :
    rGet (finalizeRider
        [(kRiderId, .vint uid), (kFirstName, f), (kLastName, l), (kBirthdate, bd),
         (kHeight, .vint ht), (kWeight, .vint wt), (kEmail, em), (kGender, g),
         (kAccountCreated, ac)]) kLastName
      = some (if l = Value.vint (-1) then Value.vnull else l) := rfl

/-- C6: on a name whose token list is `p0 :: rest`, the builder drops `p0`
exactly when its lowercase form is an honorific (working then on the
single-space rejoin of `rest`); the last name is the final whitespace
token of the remaining string `nm`, and whenever `nm` contains a space
the first name is everything before the last space.  `Dr. Jane Mary
Smith` gives `(Jane Mary, Smith)` and an absent name gives two nulls. -/
theorem C6_name_split_multi_token :
    (∀ (p : Payload) (r : Record) (s p0 : List Char) (rest : List (List Char))
        (nm : List Char),
      pGetD p kName .pnull = .pstr s →
      pySplitWs s = p0 :: rest →
      nm = (if honorifics.contains (pyLower p0) then joinSpace rest else s) →
      get_rider_from_log_line p = some r →
      (∀ lt, (pySplitWs nm).getLast? = some lt → rGet r kLastName = some (.vstr lt))
        ∧ (0 ≤ pyRFind ' ' nm →
            rGet r kFirstName = some (.vstr (nm.take (pyRFind ' ' nm).toNat))))
    ∧ ((get_rider_from_log_line [(kName, .pstr "Dr. Jane Mary Smith".data)]).bind
          (fun r => rGet r kFirstName) = some (.vstr "Jane Mary".data)
        ∧ (get_rider_from_log_line [(kName, .pstr "Dr. Jane Mary Smith".data)]).bind
          (fun r => rGet r kLastName) = some (.vstr "Smith".data))
    ∧ (∀ (p : Payload) (r : Record), pGetD p kName .pnull = .pnull →
        get_rider_from_log_line p = some r →
        rGet r kFirstName = some .vnull ∧ rGet r kLastName = some .vnull) := by
  refine ⟨?_, by decide, ?_⟩
  · intro p r s p0 rest nm hname hsplit hnm hbuild
    obtain ⟨uid, np, bd, ht, wt, g, ac, _, h2, _, _, _, _, _, h8⟩ := get_rider_inv p r hbuild
    rw [hname] at h2
    have hsne : s.isEmpty = false := by
      cases s with
      | nil => simp [pySplitWs, splitWsRaw] at hsplit
      | cons c t => rfl
    simp only [riderNamePart, hsne, Bool.false_eq_true, if_false, hsplit] at h2
    rw [← hnm] at h2
    cases hlt : (pySplitWs nm).getLast? with
    | none => rw [hlt] at h2; exact absurd h2 (by simp)
    | some lt0 =>
      rw [hlt] at h2
      injection h2 with h2
      subst h2
      subst h8
      constructor
      · intro lt hlt2
        obtain rfl : lt0 = lt := Option.some.inj hlt2
        rw [rGet_rider_last]
        simp
      · intro hge
        rw [rGet_rider_first]
        have : pySliceTo nm (pyRFind ' ' nm) = nm.take (pyRFind ' ' nm).toNat := by
          unfold pySliceTo
          rw [if_pos hge]
        simp [this]
  · intro p r hname hbuild
    obtain ⟨uid, np, bd, ht, wt, g, ac, _, h2, _, _, _, _, _, h8⟩ := get_rider_inv p r hbuild
    rw [hname] at h2
    simp only [riderNamePart, Option.some.injEq] at h2
    subst h2
    subst h8
    exact ⟨by rw [rGet_rider_first]; simp, by rw [rGet_rider_last]; simp⟩

/-- C6 witness: the quantified parts applied at a concrete rider line. -/
theorem C6_name_split_witness :
    (rGet ((get_rider_from_log_line [(kName, .pstr "Ms Alice May Jones".data)]).getD [])
        kLastName = some (.vstr "Jones".data)
      ∧ rGet ((get_rider_from_log_line [(kName, .pstr "Ms Alice May Jones".data)]).getD [])
        kFirstName = some (.vstr "Alice May".data))
    ∧ (rGet ((get_rider_from_log_line [(kHeightCm, .pint 180)]).getD []) kFirstName
        = some .vnull) := by
  constructor
  · obtain ⟨hlast, hfirst⟩ :=
      C6_name_split_multi_token.1 [(kName, .pstr "Ms Alice May Jones".data)]
        ((get_rider_from_log_line [(kName, .pstr "Ms Alice May Jones".data)]).getD [])
        "Ms Alice May Jones".data "Ms".data
        ["Alice".data, "May".data, "Jones".data]
        "Alice May Jones".data (by decide) (by decide) (by decide) (by decide)
    exact ⟨hlast "Jones".data (by decide), by
      have h := hfirst (by decide)
      rwa [show (pyRFind ' ' "Alice May Jones".data).toNat = 9 from by decide] at h⟩
  · exact (C6_name_split_multi_token.2.2 [(kHeightCm, .pint 180)]
      ((get_rider_from_log_line [(kHeightCm, .pint 180)]).getD []) (by decide) (by decide)).1

/-! ### C4: elapsed time -/

/-- Truncating division of a nonnegative integer by one million is
nonnegative. -/
theorem tdiv_million_nonneg (a : Int) (h : 0 ≤ a) : 0 ≤ a.tdiv 1000000 := by
  cases a with
  | ofNat m => exact Int.ofNat_nonneg _
  | negSucc m => exact absurd h (by simp)

/-- C4: whenever the reading builder returns, the elapsed-time field is
null or a nonnegative whole number of seconds, and it is populated
exactly when the first line's extracted timestamp is strictly after
`start_time`, with the truncated second difference; an unparseable
timestamp or a non-positive delta gives null. -/
theorem C4_elapsed_time_nonneg :
    ∀ (now : PyDateTime) (pair : List Char) (startMicros : Int) (r : Record),
      get_data_from_reading_line_pair now pair startMicros = some r →
      (rGet r kElapsedTime = some .vnull
        ∨ ∃ n : Int, 0 ≤ n ∧ rGet r kElapsedTime = some (.vint n))
      ∧ (match extract_datetime_from_string now ((pySplitChar '\n' pair).headI) with
         | some dt =>
           if startMicros < toMicros dt then
             rGet r kElapsedTime = some (.vint ((toMicros dt - startMicros).tdiv 1000000))
           else rGet r kElapsedTime = some .vnull
         | none => rGet r kElapsedTime = some .vnull) := by
  intro now pair startMicros r h
  unfold get_data_from_reading_line_pair at h
  split at h
  · rename_i hsplit
    injection h with h
    subst h
    rw [hsplit]
    exact ⟨Or.inl rfl, rfl⟩
  · rename_i line0 hsplit
    cases hres : readingResistance line0 readingInit with
    | none => rw [hres] at h; exact absurd h (by simp)
    | some r1 =>
      rw [hres, Option.map_some'] at h
      injection h with h
      subst h
      rw [hsplit]
      simp only [List.headI]
      unfold readingElapsed
      cases hx : extract_datetime_from_string now line0 with
      | none =>
        simp only [hx]
        exact ⟨Or.inl (rGet_dictSet_self _ _ _), rGet_dictSet_self _ _ _⟩
      | some dt =>
        simp only [hx]
        split_ifs with hgt
        · exact ⟨Or.inr ⟨_, tdiv_million_nonneg _ (by omega), rGet_dictSet_self _ _ _⟩,
            rGet_dictSet_self _ _ _⟩
        · exact ⟨Or.inl (rGet_dictSet_self _ _ _), rGet_dictSet_self _ _ _⟩
  · rename_i line0 line1 restLines hsplit
    cases hres : readingResistance line0 readingInit with
    | none => rw [hres] at h; exact absurd h (by simp)
    | some r1 =>
      rw [hres] at h
      unfold readingTelemetry at h
      cases hhr : telemetryHeart line1 with
      | none => rw [hhr] at h; exact absurd h (by simp)
      | some hr =>
      cases hpw : telemetryPower line1 with
      | none => rw [hhr, hpw] at h; exact absurd h (by simp)
      | some pw =>
      cases hrp : telemetryRpm line1 with
      | none => rw [hhr, hpw, hrp] at h; exact absurd h (by simp)
      | some rpmv =>
        rw [hhr, hpw, hrp] at h
        injection h with h
        subst h
        have hpres :
            rGet (dictSet (dictSet (dictSet (readingElapsed now startMicros line0 r1)
                kHeartRate (.vint hr)) kPower (.vfloat pw)) kRpm (.vint rpmv)) kElapsedTime
              = rGet (readingElapsed now startMicros line0 r1) kElapsedTime := by
          rw [rGet_dictSet_ne _ _ _ _ (by decide), rGet_dictSet_ne _ _ _ _ (by decide),
            rGet_dictSet_ne _ _ _ _ (by decide)]
        rw [hsplit]
        simp only [List.headI]
        simp only [hpres]
        unfold readingElapsed
        cases hx : extract_datetime_from_string now line0 with
        | none =>
          simp only [hx]
          exact ⟨Or.inl (rGet_dictSet_self _ _ _), rGet_dictSet_self _ _ _⟩
        | some dt =>
          simp only [hx]
          split_ifs with hgt
          · exact ⟨Or.inr ⟨_, tdiv_million_nonneg _ (by omega), rGet_dictSet_self _ _ _⟩,
              rGet_dictSet_self _ _ _⟩
          · exact ⟨Or.inl (rGet_dictSet_self _ _ _), rGet_dictSet_self _ _ _⟩

/-- C4 witness: a concrete reading pair whose timestamp is 30.4 seconds
after the ride start. -/
theorem C4_elapsed_time_witness :
    (rGet ((get_data_from_reading_line_pair ⟨2023, 6, 1, 0, 0, 0, 0⟩
          "2023-05-04 10:20:30 [INFO]: Ride - duration = 1; resistance = 30".data
          (toMicros ⟨2023, 5, 4, 10, 19, 59, 600000⟩)).getD []) kElapsedTime
        = some .vnull
      ∨ ∃ n : Int, 0 ≤ n
          ∧ rGet ((get_data_from_reading_line_pair ⟨2023, 6, 1, 0, 0, 0, 0⟩
              "2023-05-04 10:20:30 [INFO]: Ride - duration = 1; resistance = 30".data
              (toMicros ⟨2023, 5, 4, 10, 19, 59, 600000⟩)).getD []) kElapsedTime
            = some (.vint n)) := by
  have h := C4_elapsed_time_nonneg ⟨2023, 6, 1, 0, 0, 0, 0⟩
    "2023-05-04 10:20:30 [INFO]: Ride - duration = 1; resistance = 30".data
    (toMicros ⟨2023, 5, 4, 10, 19, 59, 600000⟩)
    ((get_data_from_reading_line_pair ⟨2023, 6, 1, 0, 0, 0, 0⟩
        "2023-05-04 10:20:30 [INFO]: Ride - duration = 1; resistance = 30".data
        (toMicros ⟨2023, 5, 4, 10, 19, 59, 600000⟩)).getD []) (by decide)
  exact h.1

/-! ### C10: shape of the reading record -/

/-- A reading field value is null or numeric. -/
def OKV (v : Value) : Prop :=
  v = .vnull ∨ (∃ n, v = .vint n) ∨ ∃ q, v = .vfloat q

/-- One dictionary update preserves the key list and the null-or-numeric
value invariant. -/
theorem shape_step (r : Record) (k : List Char) (v : Value) (keys : List (List Char))
    (hkeys : r.map Prod.fst = keys) (hmem : k ∈ keys)
    (hvals : ∀ kv ∈ r, OKV kv.2) (hv : OKV v) :
    (dictSet r k v).map Prod.fst = keys ∧ ∀ kv ∈ dictSet r k v, OKV kv.2 := by
  constructor
  · rw [map_fst_dictSet _ _ _ (by rw [hkeys]; exact hmem)]
    exact hkeys
  · intro kv hkv
    rcases mem_dictSet _ _ _ _ hkv with h | h
    · rw [h]; exact hv
    · exact hvals kv h

/-- The initial reading dictionary is all-null. -/
theorem readingInit_vals : ∀ kv ∈ readingInit, OKV kv.2 := by
  intro kv hkv
  simp only [readingInit, List.mem_cons, List.not_mem_nil, or_false] at hkv
  rcases hkv with h | h | h | h | h <;> (rw [h]; exact Or.inl rfl)

/-- The five keys of the reading dictionary. -/
def readingKeys : List (List Char) :=
  [kResistance, kElapsedTime, kHeartRate, kPower, kRpm]

/-- A successful resistance step is one update of the resistance key with
a null-or-integer value. -/
theorem readingResistance_inv (line0 : List Char) (r0 r1 : Record)
    (h : readingResistance line0 r0 = some r1) :
    ∃ v, OKV v ∧ r1 = dictSet r0 kResistance v := by
  unfold readingResistance at h
  cases hsp : pySplitChar '=' (pyLast (pySplitChar ';' line0)) with
  | nil =>
    rw [hsp] at h
    injection h with h
    exact ⟨.vnull, Or.inl rfl, h.symm⟩
  | cons p0 t =>
    cases t with
    | nil =>
      rw [hsp] at h
      injection h with h
      exact ⟨.vnull, Or.inl rfl, h.symm⟩
    | cons p1 t2 =>
      rw [hsp] at h
      replace h : (match pyInt (pyStrip p1) with
          | some n => some (dictSet r0 kResistance (Value.vint n))
          | none => none) = some r1 := h
      cases hpi : pyInt (pyStrip p1) with
      | none => rw [hpi] at h; exact absurd h (by simp)
      | some n =>
        rw [hpi] at h
        injection h with h
        exact ⟨.vint n, Or.inr (Or.inl ⟨n, rfl⟩), h.symm⟩

/-- The elapsed step is one update of the elapsed-time key with a
null-or-integer value. -/
theorem readingElapsed_shape (now : PyDateTime) (st : Int) (line0 : List Char) (r1 : Record) :
    ∃ v, OKV v ∧ readingElapsed now st line0 r1 = dictSet r1 kElapsedTime v := by
  unfold readingElapsed
  cases extract_datetime_from_string now line0 with
  | none => exact ⟨.vnull, Or.inl rfl, rfl⟩
  | some dt =>
    by_cases hgt : toMicros dt > st
    · exact ⟨.vint ((toMicros dt - st).tdiv 1000000), Or.inr (Or.inl ⟨_, rfl⟩), by
        show (if toMicros dt > st then
            dictSet r1 kElapsedTime (Value.vint ((toMicros dt - st).tdiv 1000000))
          else dictSet r1 kElapsedTime Value.vnull) = _
        rw [if_pos hgt]⟩
    · exact ⟨.vnull, Or.inl rfl, by
        show (if toMicros dt > st then
            dictSet r1 kElapsedTime (Value.vint ((toMicros dt - st).tdiv 1000000))
          else dictSet r1 kElapsedTime Value.vnull) = _
        rw [if_neg hgt]⟩

/-- C10: whenever the reading builder returns a record, its keys are
exactly `resistance, elapsed_time, heart_rate, power, rpm` in that order,
and every value is null or numeric (an integer or a float). -/
theorem C10_reading_record_shape :
    ∀ (now : PyDateTime) (pair : List Char) (startMicros : Int) (r : Record),
      get_data_from_reading_line_pair now pair startMicros = some r →
      r.map Prod.fst = readingKeys ∧ ∀ kv ∈ r, OKV kv.2 := by
  intro now pair startMicros r h
  have hinit : readingInit.map Prod.fst = readingKeys ∧ ∀ kv ∈ readingInit, OKV kv.2 :=
    ⟨rfl, readingInit_vals⟩
  unfold get_data_from_reading_line_pair at h
  split at h
  · injection h with h
    subst h
    exact hinit
  · rename_i line0 hsplit
    cases hres : readingResistance line0 readingInit with
    | none => rw [hres] at h; exact absurd h (by simp)
    | some r1 =>
      rw [hres, Option.map_some'] at h
      injection h with h
      subst h
      obtain ⟨v0, hv0, hr1⟩ := readingResistance_inv line0 readingInit r1 hres
      subst hr1
      have h1 := shape_step _ kResistance v0 readingKeys hinit.1 (by decide) hinit.2 hv0
      obtain ⟨v1, hv1, he⟩ := readingElapsed_shape now startMicros line0 _
      rw [he]
      exact shape_step _ kElapsedTime v1 readingKeys h1.1 (by decide) h1.2 hv1
  · rename_i line0 line1 restLines hsplit
    cases hres : readingResistance line0 readingInit with
    | none => rw [hres] at h; exact absurd h (by simp)
    | some r1 =>
      rw [hres] at h
      unfold readingTelemetry at h
      cases hhr : telemetryHeart line1 with
      | none => rw [hhr] at h; exact absurd h (by simp)
      | some hr =>
      cases hpw : telemetryPower line1 with
      | none => rw [hhr, hpw] at h; exact absurd h (by simp)
      | some pw =>
      cases hrp : telemetryRpm line1 with
      | none => rw [hhr, hpw, hrp] at h; exact absurd h (by simp)
      | some rpmv =>
        rw [hhr, hpw, hrp] at h
        injection h with h
        subst h
        obtain ⟨v0, hv0, hr1⟩ := readingResistance_inv line0 readingInit r1 hres
        subst hr1
        have h1 := shape_step _ kResistance v0 readingKeys hinit.1 (by decide) hinit.2 hv0
        obtain ⟨v1, hv1, he⟩ := readingElapsed_shape now startMicros line0 _
        rw [he]
        have h2 := shape_step _ kElapsedTime v1 readingKeys h1.1 (by decide) h1.2 hv1
        have h3 := shape_step _ kHeartRate (.vint hr) readingKeys h2.1 (by decide) h2.2
          (Or.inr (Or.inl ⟨_, rfl⟩))
        have h4 := shape_step _ kPower (.vfloat pw) readingKeys h3.1 (by decide) h3.2
          (Or.inr (Or.inr ⟨_, rfl⟩))
        exact shape_step _ kRpm (.vint rpmv) readingKeys h4.1 (by decide) h4.2
          (Or.inr (Or.inl ⟨_, rfl⟩))

/-- C10 witness: the shape of a concrete one-line reading. -/
theorem C10_reading_record_shape_witness :
    ((get_data_from_reading_line_pair ⟨2023, 6, 1, 0, 0, 0, 0⟩
        "x [INFO]: Ride - duration = 1; resistance = 30".data 0).getD []).map Prod.fst
      = readingKeys := by
  exact (C10_reading_record_shape ⟨2023, 6, 1, 0, 0, 0, 0⟩
    "x [INFO]: Ride - duration = 1; resistance = 30".data 0
    ((get_data_from_reading_line_pair ⟨2023, 6, 1, 0, 0, 0, 0⟩
        "x [INFO]: Ride - duration = 1; resistance = 30".data 0).getD [])
    (by decide)).1

/-! ### C3: datetime extraction round trip -/

theorem dropWhile_isSuffix (p : Char → Bool) (l : List Char) : l.dropWhile p <:+ l := by
  induction l with
  | nil => simp
  | cons a t ih =>
    by_cases hp : p a
    · simp only [List.dropWhile, hp]
      exact ih.trans (List.suffix_cons a t)
    · simp only [List.dropWhile, hp]
      exact List.suffix_rfl

theorem parseField_suffix (lo hi : Nat) (s : List Char) (n : Nat) (rest : List Char)
    (h : parseField lo hi s = some (n, rest)) : rest <:+ s := by
  replace h : (if (decide (lo ≤ (List.span Char.isDigit s).1.length)
        && decide ((List.span Char.isDigit s).1.length ≤ hi)) = true then
      some (digitsToNat (List.span Char.isDigit s).1 0, (List.span Char.isDigit s).2)
    else none) = some (n, rest) := h
  split_ifs at h
  · injection h with h
    have h2 : (List.span Char.isDigit s).2 = rest := congrArg Prod.snd h
    have h3 : (List.span Char.isDigit s).2 = s.dropWhile Char.isDigit :=
      congrArg Prod.snd (List.span_eq_take_drop Char.isDigit s)
    rw [← h2, h3]
    exact dropWhile_isSuffix _ s

theorem parseLit_eq (c : Char) (s t : List Char) (h : parseLit c s = some t) : s = c :: t := by
  cases s with
  | nil => exact absurd h (by simp [parseLit])
  | cons x t2 =>
    replace h : (if x = c then some t2 else none) = some t := h
    split_ifs at h with hx
    injection h with h
    rw [hx, h]

theorem parseFieldLit_suffix (lo hi : Nat) (c : Char) (s : List Char) (n : Nat)
    (rest : List Char) (h : parseFieldLit lo hi c s = some (n, rest)) : rest <:+ s := by
  unfold parseFieldLit at h
  cases hf : parseField lo hi s with
  | none => rw [hf] at h; exact absurd h (by simp)
  | some nr =>
    obtain ⟨n1, r1⟩ := nr
    rw [hf] at h
    replace h : (match parseLit c r1 with
        | some rest2 => some (n1, rest2)
        | none => none) = some (n, rest) := h
    cases hl : parseLit c r1 with
    | none => rw [hl] at h; exact absurd h (by simp)
    | some r2 =>
      rw [hl] at h
      injection h with h
      have h2 : r2 = rest := congrArg Prod.snd h
      have h3 : r1 = c :: r2 := parseLit_eq c r1 r2 hl
      have h4 : rest <:+ r1 := by
        rw [h3, ← h2]
        exact List.suffix_cons c r2
      exact h4.trans (parseField_suffix lo hi s n1 r1 hf)

theorem parseMicroPart_true_dot (s : List Char) (m : Nat) (rest : List Char)
    (h : parseMicroPart true s = some (m, rest)) : '.' ∈ s := by
  replace h : (match parseLit '.' s with
      | some s2 =>
        let (fs, r2) := takeDigits s2
        if 1 ≤ fs.length && fs.length ≤ 6 then
          some (digitsToNat fs 0 * 10 ^ (6 - fs.length), r2)
        else none
      | none => none) = some (m, rest) := h
  cases hl : parseLit '.' s with
  | none => rw [hl] at h; exact absurd h (by simp)
  | some s2 =>
    rw [parseLit_eq '.' s s2 hl]
    exact List.mem_cons_self '.' s2

theorem stepMicro_dot (y mo d hh mi sec : Nat) (s6 : List Char) (dt : PyDateTime)
    (h : strptimeStepMicro true y mo d hh mi sec s6 = some dt) : '.' ∈ s6 := by
  unfold strptimeStepMicro at h
  cases hm : parseMicroPart true s6 with
  | none => rw [hm] at h; exact absurd h (by simp)
  | some pr =>
    obtain ⟨m, s7⟩ := pr
    exact parseMicroPart_true_dot s6 m s7 hm

theorem stepSec_dot (y mo d hh mi : Nat) (s5 : List Char) (dt : PyDateTime)
    (h : strptimeStepSec true y mo d hh mi s5 = some dt) : '.' ∈ s5 := by
  unfold strptimeStepSec at h
  cases hf : parseField 1 2 s5 with
  | none => rw [hf] at h; exact absurd h (by simp)
  | some pr =>
    obtain ⟨sec, s6⟩ := pr
    rw [hf] at h
    exact (parseField_suffix 1 2 s5 sec s6 hf).subset (stepMicro_dot y mo d hh mi sec s6 dt h)

theorem stepMin_dot (y mo d hh : Nat) (s4 : List Char) (dt : PyDateTime)
    (h : strptimeStepMin true y mo d hh s4 = some dt) : '.' ∈ s4 := by
  unfold strptimeStepMin at h
  cases hf : parseFieldLit 1 2 ':' s4 with
  | none => rw [hf] at h; exact absurd h (by simp)
  | some pr =>
    obtain ⟨mi, s5⟩ := pr
    rw [hf] at h
    exact (parseFieldLit_suffix 1 2 ':' s4 mi s5 hf).subset
      (stepSec_dot y mo d hh mi s5 dt h)

theorem stepHour_dot (y mo d : Nat) (s3 : List Char) (dt : PyDateTime)
    (h : strptimeStepHour true y mo d s3 = some dt) : '.' ∈ s3 := by
  unfold strptimeStepHour at h
  cases hf : parseFieldLit 1 2 ':' s3 with
  | none => rw [hf] at h; exact absurd h (by simp)
  | some pr =>
    obtain ⟨hh, s4⟩ := pr
    rw [hf] at h
    exact (parseFieldLit_suffix 1 2 ':' s3 hh s4 hf).subset (stepMin_dot y mo d hh s4 dt h)

theorem stepDay_dot (y mo : Nat) (s2 : List Char) (dt : PyDateTime)
    (h : strptimeStepDay true y mo s2 = some dt) : '.' ∈ s2 := by
  unfold strptimeStepDay at h
  cases hf : parseFieldLit 1 2 ' ' s2 with
  | none => rw [hf] at h; exact absurd h (by simp)
  | some pr =>
    obtain ⟨d, s3⟩ := pr
    rw [hf] at h
    exact (parseFieldLit_suffix 1 2 ' ' s2 d s3 hf).subset (stepHour_dot y mo d s3 dt h)

theorem stepMonth_dot (y : Nat) (s1 : List Char) (dt : PyDateTime)
    (h : strptimeStepMonth true y s1 = some dt) : '.' ∈ s1 := by
  unfold strptimeStepMonth at h
  cases hf : parseFieldLit 1 2 '-' s1 with
  | none => rw [hf] at h; exact absurd h (by simp)
  | some pr =>
    obtain ⟨mo, s2⟩ := pr
    rw [hf] at h
    exact (parseFieldLit_suffix 1 2 '-' s1 mo s2 hf).subset (stepDay_dot y mo s2 dt h)

/-- A successful with-microseconds parse consumed a literal dot. -/
theorem strptime_micro_dot (s : List Char) (dt : PyDateTime)
    (h : strptimeYmdHms true s = some dt) : '.' ∈ s := by
  unfold strptimeYmdHms at h
  cases hf : parseFieldLit 4 4 '-' s with
  | none => rw [hf] at h; exact absurd h (by simp)
  | some pr =>
    obtain ⟨y, s1⟩ := pr
    rw [hf] at h
    exact (parseFieldLit_suffix 4 4 '-' s y s1 hf).subset (stepMonth_dot y s1 dt h)

theorem mem_joinSpace (c : Char) (xs : List (List Char)) (h : c ∈ joinSpace xs) :
    c = ' ' ∨ ∃ x ∈ xs, c ∈ x := by
  induction xs with
  | nil => simp [joinSpace] at h
  | cons x t ih =>
    cases t with
    | nil => exact Or.inr ⟨x, by simp, by simpa [joinSpace] using h⟩
    | cons y t2 =>
      simp only [joinSpace] at h
      rcases List.mem_append.mp h with hx | h2
      · exact Or.inr ⟨x, List.mem_cons_self x _, hx⟩
      · rcases List.mem_cons.mp h2 with hsp | h3
        · exact Or.inl hsp
        · rcases ih h3 with hsp | ⟨x2, hx2, hcx⟩
          · exact Or.inl hsp
          · exact Or.inr ⟨x2, List.mem_cons_of_mem x hx2, hcx⟩

theorem mem_pySplitChar (sep c : Char) (s : List Char) (x : List Char)
    (hx : x ∈ pySplitChar sep s) (hc : c ∈ x) : c ∈ s := by
  induction s generalizing x with
  | nil =>
    simp [pySplitChar] at hx
    subst hx
    simp at hc
  | cons a t ih =>
    simp only [pySplitChar] at hx
    by_cases ha : a = sep
    · rw [if_pos ha] at hx
      rcases List.mem_cons.mp hx with h | h
      · subst h; simp at hc
      · exact List.mem_cons_of_mem a (ih x h hc)
    · rw [if_neg ha] at hx
      cases hr : pySplitChar sep t with
      | nil =>
        rw [hr] at hx
        have hx2 : x = [a] := by simpa using hx
        subst hx2
        have : c = a := by simpa using hc
        subst this
        exact List.mem_cons_self c t
      | cons h0 t2 =>
        rw [hr] at hx
        rcases List.mem_cons.mp hx with h | h
        · subst h
          rcases List.mem_cons.mp hc with h2 | h2
          · subst h2
            exact List.mem_cons_self c t
          · have : c ∈ t := ih h0 (by rw [hr]; exact List.mem_cons_self h0 t2) h2
            exact List.mem_cons_of_mem a this
        · have : c ∈ t := ih x (by rw [hr]; exact List.mem_cons_of_mem h0 h) hc
          exact List.mem_cons_of_mem a this

/-- A non-space character of the candidate datetime string came from the
input line itself. -/
theorem mem_firstTwoTokens (c : Char) (s : List Char) (hc : c ≠ ' ')
    (h : c ∈ firstTwoTokens s) : c ∈ s := by
  unfold firstTwoTokens at h
  rcases mem_joinSpace c _ h with h1 | ⟨x, hx, hcx⟩
  · exact absurd h1 hc
  · exact mem_pySplitChar ' ' c s x (List.take_subset 2 _ hx) hcx

/-- C3 counterexample: the claim promises a round trip for every line
whose leading two tokens form a valid plain datetime, but the format is
chosen by a dot anywhere in the whole line: on
`2023-05-04 10:20:30 v.2` the tokens parse (and lie inside the window for
the chosen reference instant), yet the extractor returns `none` because
the stray `.` selects the with-microseconds format. -/
theorem C3_counterexample :
    strptimeYmdHms false (firstTwoTokens "2023-05-04 10:20:30 v.2".data)
        = some ⟨2023, 5, 4, 10, 20, 30, 0⟩
      ∧ invalidDateThresholdMicros ≤ toMicros ⟨2023, 5, 4, 10, 20, 30, 0⟩
      ∧ toMicros ⟨2023, 5, 4, 10, 20, 30, 0⟩ ≤ toMicros ⟨2023, 6, 1, 0, 0, 0, 0⟩
      ∧ extract_datetime_from_string ⟨2023, 6, 1, 0, 0, 0, 0⟩
          "2023-05-04 10:20:30 v.2".data = none := by decide

/-- C3 (amended): when the format selected by the presence of a dot in
the whole line parses the leading two space-separated tokens to a
datetime, the extractor returns exactly that datetime if it lies in the
window from 1900-01-01 to `now`, and absent otherwise; a with-microseconds
parse of the tokens forces a dot in the line, so with-microseconds
strings always round-trip, and the defect is confined to dotted lines
whose tokens carry no fractional seconds. -/
theorem C3_roundtrip_amended :
    (∀ (now : PyDateTime) (s : List Char) (dt : PyDateTime),
      strptimeYmdHms (s.contains '.') (firstTwoTokens s) = some dt →
      ((invalidDateThresholdMicros ≤ toMicros dt ∧ toMicros dt ≤ toMicros now →
          extract_datetime_from_string now s = some dt)
        ∧ (toMicros dt < invalidDateThresholdMicros ∨ toMicros now < toMicros dt →
          extract_datetime_from_string now s = none)))
    ∧ (∀ (s : List Char) (dt : PyDateTime),
        strptimeYmdHms true (firstTwoTokens s) = some dt → s.contains '.' = true) := by
  constructor
  · intro now s dt hp
    constructor
    · intro hw
      have hc : check_datetime_is_valid now dt = true := by
        unfold check_datetime_is_valid
        split_ifs with hcond
        · exfalso
          simp only [Bool.or_eq_true, decide_eq_true_eq] at hcond
          omega
        · rfl
      unfold extract_datetime_from_string
      rw [hp]
      show (if check_datetime_is_valid now dt = true then some dt else none) = some dt
      rw [hc]
      simp
    · intro hw
      have hc : check_datetime_is_valid now dt = false := by
        unfold check_datetime_is_valid
        split_ifs with hcond
        · rfl
        · exfalso
          simp only [Bool.or_eq_true, decide_eq_true_eq, not_or] at hcond
          omega
      unfold extract_datetime_from_string
      rw [hp]
      show (if check_datetime_is_valid now dt = true then some dt else none) = none
      rw [hc]
      simp
  · intro s dt hp
    have hdot : '.' ∈ firstTwoTokens s := strptime_micro_dot _ dt hp
    have : '.' ∈ s := mem_firstTwoTokens '.' s (by decide) hdot
    exact List.elem_eq_true_of_mem this

/-- C3 witness: the round trip on a concrete dot-free line inside the
window, the absent result on a pre-1900 line, and the dot-forcing fact on
a concrete with-microseconds line. -/
theorem C3_roundtrip_witness :
    extract_datetime_from_string ⟨2023, 6, 1, 0, 0, 0, 0⟩
        "2023-05-04 10:20:30 rest of line".data = some ⟨2023, 5, 4, 10, 20, 30, 0⟩
      ∧ extract_datetime_from_string ⟨2023, 6, 1, 0, 0, 0, 0⟩
        "1899-12-31 23:59:59 old line".data = none
      ∧ ("2023-05-04 10:20:30.5 x".data.contains '.') = true := by
  refine ⟨?_, ?_, ?_⟩
  · exact ((C3_roundtrip_amended.1 ⟨2023, 6, 1, 0, 0, 0, 0⟩
      "2023-05-04 10:20:30 rest of line".data ⟨2023, 5, 4, 10, 20, 30, 0⟩
      (by decide)).1 (by decide))
  · exact ((C3_roundtrip_amended.1 ⟨2023, 6, 1, 0, 0, 0, 0⟩
      "1899-12-31 23:59:59 old line".data ⟨1899, 12, 31, 23, 59, 59, 0⟩
      (by decide)).2 (by decide))
  · exact C3_roundtrip_amended.2 "2023-05-04 10:20:30.5 x".data
      ⟨2023, 5, 4, 10, 20, 30, 500000⟩ (by decide)

/-! ### C1: builder totality and its limits -/

/-- A payload slot that survives `int(d.get(k, -1))`: missing, an integer,
or integer text. -/
def intFieldOk : Option PyVal → Bool
  | none => true
  | some (.pint _) => true
  | some (.pstr s) => (pyInt s).isSome
  | some .pnull => false

/-- A payload slot that survives `timestamp_to_date`: missing, `None`, or
a millisecond timestamp whose date lands in Python's year range. -/
def tsFieldOk : Option PyVal → Bool
  | none => true
  | some .pnull => true
  | some (.pint ms) => (timestamp_to_date (.pint ms)).isSome
  | some (.pstr _) => false

/-- A name slot the splitting step survives: missing, falsy, or text with
at least one token that is not a lone honorific. -/
def nameFieldOk : Option PyVal → Bool
  | none => true
  | some .pnull => true
  | some (.pint n) => n = 0
  | some (.pstr s) =>
    s.isEmpty ||
      (match pySplitWs s with
       | [] => false
       | p0 :: rest => !(honorifics.contains (pyLower p0)) || !rest.isEmpty)

/-- A gender slot the gender step survives: anything but a truthy
non-string. -/
def genderFieldOk : Option PyVal → Bool
  | none => true
  | some .pnull => true
  | some (.pint n) => n = 0
  | some (.pstr _) => true

/-- The payload shapes on which the rider builder cannot raise. -/
def wfRiderPayload (p : Payload) : Bool :=
  intFieldOk (pGet p kUserId) && nameFieldOk (pGet p kName)
    && tsFieldOk (pGet p kDateOfBirth) && intFieldOk (pGet p kHeightCm)
    && intFieldOk (pGet p kWeightKg) && genderFieldOk (pGet p kGender)
    && tsFieldOk (pGet p kAccountCreateDate)

/-- The payload shapes on which the ride builder cannot raise. -/
def wfRidePayload (p : Payload) : Bool :=
  match pGet p kUserId with
  | none => true
  | some v => (pyIntOfVal v).isSome

/-- A first reading line whose resistance fragment, when an `=` is
present, carries integer text. -/
def resistanceLineOk (line0 : List Char) : Bool :=
  match pySplitChar '=' (pyLast (pySplitChar ';' line0)) with
  | _ :: p1 :: _ => (pyInt (pyStrip p1)).isSome
  | _ => true

/-- A telemetry line whose three `key=value` fragments are well formed. -/
def telemetryLineOk (line1 : List Char) : Bool :=
  (telemetryHeart line1).isSome && (telemetryPower line1).isSome
    && (telemetryRpm line1).isSome

/-- The reading pairs on which the reading builder cannot raise. -/
def wfReadingPair (pair : List Char) : Bool :=
  match pySplitChar '\n' pair with
  | [] => true
  | [l0] => resistanceLineOk l0
  | l0 :: l1 :: _ => resistanceLineOk l0 && telemetryLineOk l1

/-- The payloads on which the address builder cannot raise: no address
key, or an address string with at least two comma pieces. -/
def wfAddressPayload (p : Payload) : Bool :=
  match pGet p kAddress with
  | none => true
  | some (.pstr s) => 2 ≤ (pySplitChar ',' s).length
  | some _ => false

/-- Pieces of the whitespace split contain no whitespace. -/
theorem splitWsRaw_pieces (s : List Char) :
    ∀ x ∈ splitWsRaw s, ∀ c ∈ x, pyIsSpace c = false := by
  induction s with
  | nil =>
    intro x hx c hc
    simp [splitWsRaw] at hx
    subst hx
    simp at hc
  | cons a t ih =>
    intro x hx c hc
    simp only [splitWsRaw] at hx
    by_cases ha : pyIsSpace a
    · rw [if_pos ha] at hx
      rcases List.mem_cons.mp hx with h | h
      · subst h; simp at hc
      · exact ih x h c hc
    · rw [if_neg ha] at hx
      cases hr : splitWsRaw t with
      | nil =>
        rw [hr] at hx
        have hx2 : x = [a] := by simpa using hx
        subst hx2
        have : c = a := by simpa using hc
        subst this
        exact Bool.not_eq_true _ ▸ (by simpa using ha)
      | cons h0 t2 =>
        rw [hr] at hx
        rcases List.mem_cons.mp hx with h | h
        · subst h
          rcases List.mem_cons.mp hc with h2 | h2
          · subst h2
            simpa using ha
          · exact ih h0 (by rw [hr]; exact List.mem_cons_self h0 t2) c h2
        · exact ih x (by rw [hr]; exact List.mem_cons_of_mem h0 h) c hc

/-- A string starting with a non-space character has at least one token. -/
theorem splitWs_cons_ne (c : Char) (u : List Char) (hc : pyIsSpace c = false) :
    pySplitWs (c :: u) ≠ [] := by
  unfold pySplitWs
  simp only [splitWsRaw, hc, Bool.false_eq_true, if_false]
  cases hr : splitWsRaw u with
  | nil => simp
  | cons h0 t2 => simp

/-- The rejoin of a nonempty token list has at least one token. -/
theorem splitWs_joinSpace_ne (x : List Char) (t : List (List Char))
    (hx : x ≠ []) (hhead : ∀ c ∈ x, pyIsSpace c = false) :
    pySplitWs (joinSpace (x :: t)) ≠ [] := by
  obtain ⟨c, x2, rfl⟩ : ∃ c x2, x = c :: x2 := by
    cases x with
    | nil => exact absurd rfl hx
    | cons c x2 => exact ⟨c, x2, rfl⟩
  have hc : pyIsSpace c = false := hhead c (List.mem_cons_self c x2)
  cases t with
  | nil => exact splitWs_cons_ne c x2 hc
  | cons y t2 =>
    show pySplitWs ((c :: x2) ++ ' ' :: joinSpace (y :: t2)) ≠ []
    exact splitWs_cons_ne c (x2 ++ ' ' :: joinSpace (y :: t2)) hc

/-- The name step succeeds on every well-formed name slot. -/
theorem riderNamePart_total (v : Option PyVal) (h : nameFieldOk v = true) :
    (riderNamePart (v.getD .pnull)).isSome = true := by
  match v with
  | none => rfl
  | some .pnull => rfl
  | some (.pint n) =>
    have hn : n = 0 := by simpa [nameFieldOk] using h
    subst hn
    rfl
  | some (.pstr s) =>
    show (riderNamePart (.pstr s)).isSome = true
    by_cases hemp : s.isEmpty
    · simp [riderNamePart, hemp]
    · have hok : (match pySplitWs s with
          | [] => false
          | p0 :: rest => !(honorifics.contains (pyLower p0)) || !rest.isEmpty) = true := by
        simpa [nameFieldOk, hemp] using h
      cases hsp : pySplitWs s with
      | nil => rw [hsp] at hok; simp at hok
      | cons p0 rest =>
        rw [hsp] at hok
        simp only [riderNamePart, hemp, Bool.false_eq_true, if_false, hsp]
        cases hhon : honorifics.contains (pyLower p0) with
        | false =>
          simp only [hhon, Bool.false_eq_true, if_false]
          have hne : pySplitWs s ≠ [] := by rw [hsp]; simp
          have : (pySplitWs s).getLast?.isSome := List.getLast?_isSome.mpr hne
          obtain ⟨lt0, hlt⟩ := Option.isSome_iff_exists.mp this
          rw [hlt]
          rfl
        | true =>
          simp only [hhon, if_true]
          have hrest : rest ≠ [] := by
            rcases Bool.or_eq_true _ _ |>.mp hok with hcon | hne
            · rw [hhon] at hcon; simp at hcon
            · simpa using hne
          obtain ⟨x, t, rfl⟩ : ∃ x t, rest = x :: t := by
            cases rest with
            | nil => exact absurd rfl hrest
            | cons x t => exact ⟨x, t, rfl⟩
          have hxmem : x ∈ pySplitWs s := by
            rw [hsp]; exact List.mem_cons_of_mem p0 (List.mem_cons_self x t)
          have hxraw : x ∈ splitWsRaw s ∧ x ≠ [] := by
            simpa [pySplitWs] using hxmem
          have hne2 : pySplitWs (joinSpace (x :: t)) ≠ [] :=
            splitWs_joinSpace_ne x t hxraw.2
              (fun c hc => splitWsRaw_pieces s x hxraw.1 c hc)
          have : (pySplitWs (joinSpace (x :: t))).getLast?.isSome :=
            List.getLast?_isSome.mpr hne2
          obtain ⟨lt0, hlt⟩ := Option.isSome_iff_exists.mp this
          rw [hlt]
          rfl

/-- The integer-conversion step succeeds on every well-formed slot. -/
theorem intField_total (v : Option PyVal) (h : intFieldOk v = true) :
    (pyIntOfVal (v.getD (.pint (-1)))).isSome = true := by
  match v with
  | none => rfl
  | some .pnull => simp [intFieldOk] at h
  | some (.pint n) => rfl
  | some (.pstr s) =>
    show (pyInt s).isSome = true
    simpa [intFieldOk] using h

/-- The date step succeeds on every well-formed slot. -/
theorem tsField_total (v : Option PyVal) (h : tsFieldOk v = true) :
    (timestamp_to_date (v.getD .pnull)).isSome = true := by
  match v with
  | none => rfl
  | some .pnull => rfl
  | some (.pint ms) => simpa [tsFieldOk] using h
  | some (.pstr s) => simp [tsFieldOk] at h

/-- The gender step succeeds on every well-formed slot. -/
theorem genderField_total (v : Option PyVal) (h : genderFieldOk v = true) :
    (riderGenderValue (v.getD .pnull)).isSome = true := by
  match v with
  | none => rfl
  | some .pnull => rfl
  | some (.pint n) =>
    have hn : n = 0 := by simpa [genderFieldOk] using h
    subst hn
    rfl
  | some (.pstr s) =>
    show (if s.isEmpty = true then some Value.vnull
          else if pyLower s ≠ gMale ∧ pyLower s ≠ gFemale then some (Value.vstr gOther)
          else some (Value.vstr s)).isSome = true
    split_ifs <;> rfl

/-- The rider builder returns on every well-formed payload. -/
theorem rider_builder_total (p : Payload) (h : wfRiderPayload p = true) :
    (get_rider_from_log_line p).isSome = true := by
  unfold wfRiderPayload at h
  simp only [Bool.and_eq_true] at h
  obtain ⟨⟨⟨⟨⟨⟨h1, h2⟩, h3⟩, h4⟩, h5⟩, h6⟩, h7⟩ := h
  have e1 := intField_total _ h1
  have e2 := riderNamePart_total _ h2
  have e3 := tsField_total _ h3
  have e4 := intField_total _ h4
  have e5 := intField_total _ h5
  have e6 := genderField_total _ h6
  have e7 := tsField_total _ h7
  obtain ⟨uid, hu⟩ := Option.isSome_iff_exists.mp e1
  obtain ⟨np, hn⟩ := Option.isSome_iff_exists.mp e2
  obtain ⟨bd, hb⟩ := Option.isSome_iff_exists.mp e3
  obtain ⟨ht, hh⟩ := Option.isSome_iff_exists.mp e4
  obtain ⟨wt, hw⟩ := Option.isSome_iff_exists.mp e5
  obtain ⟨g, hg⟩ := Option.isSome_iff_exists.mp e6
  obtain ⟨ac, ha⟩ := Option.isSome_iff_exists.mp e7
  unfold get_rider_from_log_line
  unfold pGetD
  rw [hu, hn, hb, hh, hw, hg, ha]
  rfl

/-- The ride builder returns on every well-formed payload. -/
theorem ride_builder_total (now : PyDateTime) (line : List Char) (p : Payload)
    (h : wfRidePayload p = true) :
    (get_ride_data_from_log_line now line p).isSome = true := by
  unfold wfRidePayload at h
  unfold get_ride_data_from_log_line
  cases hv : pGet p kUserId with
  | none => rfl
  | some v =>
    rw [hv] at h
    replace h : (pyIntOfVal v).isSome = true := h
    obtain ⟨n, hn⟩ := Option.isSome_iff_exists.mp h
    show (match Option.map Value.vint (pyIntOfVal v) with
      | some rid =>
        some
          [(kRiderId, rid),
            (kStartTime,
              match extract_datetime_from_string now line with
              | some dt => Value.vdt (toMicros dt - 500000)
              | none => Value.vnull)]
      | none => none).isSome = true
    rw [hn]
    rfl

/-- The resistance step returns on every well-formed first line. -/
theorem readingResistance_total (line0 : List Char) (r0 : Record)
    (h : resistanceLineOk line0 = true) :
    (readingResistance line0 r0).isSome = true := by
  unfold resistanceLineOk at h
  unfold readingResistance
  cases hsp : pySplitChar '=' (pyLast (pySplitChar ';' line0)) with
  | nil => rfl
  | cons p0 t =>
    cases t with
    | nil => rfl
    | cons p1 t2 =>
      rw [hsp] at h
      obtain ⟨n, hn⟩ := Option.isSome_iff_exists.mp h
      show ((match pyInt (pyStrip p1) with
        | some n => some (dictSet r0 kResistance (Value.vint n))
        | none => none) : Option Record).isSome = true
      rw [hn]
      rfl

/-- The telemetry step returns on every well-formed second line. -/
theorem readingTelemetry_total (line1 : List Char) (r : Record)
    (h : telemetryLineOk line1 = true) :
    (readingTelemetry line1 r).isSome = true := by
  unfold telemetryLineOk at h
  simp only [Bool.and_eq_true] at h
  obtain ⟨⟨h1, h2⟩, h3⟩ := h
  obtain ⟨hr, hhr⟩ := Option.isSome_iff_exists.mp h1
  obtain ⟨pw, hpw⟩ := Option.isSome_iff_exists.mp h2
  obtain ⟨rpmv, hrp⟩ := Option.isSome_iff_exists.mp h3
  unfold readingTelemetry
  rw [hhr, hpw, hrp]
  rfl

/-- The reading builder returns on every well-formed pair. -/
theorem reading_builder_total (now : PyDateTime) (pair : List Char) (st : Int)
    (h : wfReadingPair pair = true) :
    (get_data_from_reading_line_pair now pair st).isSome = true := by
  unfold wfReadingPair at h
  unfold get_data_from_reading_line_pair
  cases hsp : pySplitChar '\n' pair with
  | nil => rfl
  | cons l0 t =>
    cases t with
    | nil =>
      rw [hsp] at h
      obtain ⟨r1, hr1⟩ := Option.isSome_iff_exists.mp (readingResistance_total l0 readingInit h)
      show ((readingResistance l0 readingInit).map (readingElapsed now st l0)).isSome = true
      rw [hr1]
      rfl
    | cons l1 t2 =>
      rw [hsp] at h
      simp only [Bool.and_eq_true] at h
      obtain ⟨r1, hr1⟩ :=
        Option.isSome_iff_exists.mp (readingResistance_total l0 readingInit h.1)
      show (match readingResistance l0 readingInit with
        | some r1 => readingTelemetry l1 (readingElapsed now st l0 r1)
        | none => none).isSome = true
      rw [hr1]
      exact readingTelemetry_total l1 _ h.2

/-- The address builder returns on every well-formed payload. -/
theorem address_builder_total (p : Payload) (h : wfAddressPayload p = true) :
    (get_address_from_log_line p).isSome = true := by
  unfold wfAddressPayload at h
  unfold get_address_from_log_line
  cases hv : pGet p kAddress with
  | none => rfl
  | some v =>
    rw [hv] at h
    match v with
    | .pnull => exact absurd h (by simp)
    | .pint n => exact absurd h (by simp)
    | .pstr s =>
      replace h : 2 ≤ (pySplitChar ',' s).length := by simpa using h
      show (match pySplitChar ',' s with
        | a0 :: a1 :: tail =>
          some
            [(kFirstLine, Value.vstr (pyStrip a0)),
             (kCity, Value.vstr (pyStrip (pySecondLast (pySplitChar ',' s)))),
             (kPostcode, Value.vstr (pyStrip (pyLast (pySplitChar ',' s)))),
             (kSecondLine, if (pySplitChar ',' s).length = 4
                           then Value.vstr (pyStrip a1) else Value.vnull)]
        | _ => none).isSome = true
      match hls : pySplitChar ',' s with
      | [] => rw [hls] at h; simp at h
      | [a0] => rw [hls] at h; simp at h
      | a0 :: a1 :: rest => rfl

/-- C1 counterexample: the claim includes a telemetry line with malformed
`key=value` fields and an address with fewer comma pieces than expected
among the inputs for which builders "never raise", but on both the
builders raise (the embedded call is `none`): the second line `garbage
telemetry line` has no `=` for the heart-rate `IndexError`, and a
one-piece address hits the uncaught `IndexError` at `[-2]`. -/
theorem C1_counterexample :
    get_data_from_reading_line_pair ⟨2023, 6, 1, 0, 0, 0, 0⟩
        ("2023-05-04 10:20:30 [INFO]: Ride - duration = 1; resistance = 30\ngarbage telemetry line").data
        0 = none
      ∧ get_address_from_log_line [(kAddress, .pstr "10 Downing Street".data)] = none := by
  decide

/-- C1 (amended): each builder returns a best-effort record, with missing
fields as nulls, on every well-formed log unit — a rider payload whose
typed fields are absent or of the expected shape, any ride line with an
absent or integer-convertible `user_id`, a reading pair whose present
`key=value` fragments hold well-formed numerals, and a payload with no
address or an address of at least two comma pieces.  Outside these shapes
(the claim's own examples: a telemetry line with malformed `key=value`
fields, an address string with fewer pieces than expected) the builder
raises instead of returning. -/
theorem C1_builders_amended :
    (∀ p : Payload, wfRiderPayload p = true → (get_rider_from_log_line p).isSome = true)
    ∧ (∀ (now : PyDateTime) (line : List Char) (p : Payload), wfRidePayload p = true →
        (get_ride_data_from_log_line now line p).isSome = true)
    ∧ (∀ (now : PyDateTime) (pair : List Char) (st : Int), wfReadingPair pair = true →
        (get_data_from_reading_line_pair now pair st).isSome = true)
    ∧ (∀ p : Payload, wfAddressPayload p = true → (get_address_from_log_line p).isSome = true) :=
  ⟨rider_builder_total, ride_builder_total, reading_builder_total, address_builder_total⟩

/-- C1 witness: all four builders return on concrete well-formed inputs. -/
theorem C1_builders_witness :
    (get_rider_from_log_line
        [(kName, .pstr "Dr. Jane Mary Smith".data), (kGender, .pstr "female".data),
         (kUserId, .pint 21)]).isSome = true
      ∧ (get_ride_data_from_log_line ⟨2023, 6, 1, 0, 0, 0, 0⟩
          "2023-05-04 10:20:30 [INFO]: Ride".data [(kUserId, .pint 21)]).isSome = true
      ∧ (get_data_from_reading_line_pair ⟨2023, 6, 1, 0, 0, 0, 0⟩
          ("2023-05-04 10:20:30 [INFO]: Ride - duration = 1; resistance = 30\nx: [INFO]: Telemetry - hrt = 84; rpm = 20; power = 12.5").data
          0).isSome = true
      ∧ (get_address_from_log_line
          [(kAddress, .pstr "63 Studio, Nursery Avenue, London, LA1 34A".data)]).isSome
          = true :=
  ⟨C1_builders_amended.1 _ (by decide),
    C1_builders_amended.2.1 _ _ _ (by decide),
    C1_builders_amended.2.2.1 _ _ 0 (by decide),
    C1_builders_amended.2.2.2 _ (by decide)⟩
